import Mathlib

/-
  Verification development for the books-library serverless backend
  (gateway_backend). The Python sources are shallowly embedded:
  request bodies and DynamoDB items become association lists of
  string-keyed JSON-like values, handlers become pure state
  transformers over an explicit database value, and the external
  stores (DynamoDB, S3, the cover-lookup API) are modelled by
  deterministic oracles or, where noted, from the spec's interface
  description.
-/

namespace BooksLib

/-- A JSON-like value as it appears in parsed request bodies and
DynamoDB items: null, boolean, integer, or string.  (Python `None`,
`bool`, `int`, `str`.) -/
inductive Val where
  | null : Val
  | bool (b : Bool) : Val
  | int (n : Int) : Val
  | str (s : String) : Val
deriving Repr, DecidableEq

/-- A Python dict with string keys, as an association list (first
binding of a key is the visible one; handlers never build duplicate
keys). -/
abbrev Item := List (String × Val)

/-- Dict lookup: value of the first binding of key `k`, if any
(Python `d[k]` / `k in d`). -/
def getField : Item → String → Option Val
  | [], _ => none
  | (k', v) :: rest, k => if k' = k then some v else getField rest k

/-- Dict assignment `d[k] = v`: replace the first binding of `k` in
place, or append a new binding. -/
def setField : Item → String → Val → Item
  | [], k, v => [(k, v)]
  | (k', v') :: rest, k, v =>
      if k' = k then (k, v) :: rest else (k', v') :: setField rest k v

/-- Attribute removal: drop every binding of key `k` (models a
DynamoDB REMOVE of that attribute). -/
def removeField : Item → String → Item
  | [], _ => []
  | (k', v) :: rest, k =>
      if k' = k then removeField rest k else (k', v) :: removeField rest k

/-- Value of the LAST binding of `k` in a field list (the binding a
left-to-right dict-building loop would leave in effect). -/
def lastVal : Item → String → Option Val
  | [], _ => none
  | (k', v) :: rest, k =>
      match lastVal rest k with
      | some w => some w
      | none => if k' = k then some v else none

/-- Python whitespace test (the ASCII whitespace `str.strip()`
removes). -/
def isPySpace (c : Char) : Bool :=
  c = ' ' || c = '\t' || c = '\n' || c = '\r' || c = '\x0b' || c = '\x0c'

/-- Python `str.strip()` over the character list. -/
def pyStrip (s : String) : String :=
  ⟨((s.data.dropWhile isPySpace).reverse.dropWhile isPySpace).reverse⟩

/-- Python `str.lower()` over the character list (ASCII). -/
def pyLower (s : String) : String := ⟨s.data.map Char.toLower⟩

/-- Suffix test over character lists (`str.endswith`). -/
def strEndsWith (s suffix : String) : Bool := suffix.data.isSuffixOf s.data

/-- Python truthiness of a value (`bool(x)`): None and empty string
and 0 and False are falsy. -/
def pyTruthy : Val → Bool
  | .null => false
  | .bool b => b
  | .int n => n ≠ 0
  | .str s => s ≠ ""

/-- Python `str(x)` on the values that can appear in a validated
body field. -/
def pyStr : Val → String
  | .null => "None"
  | .bool b => if b then "True" else "False"
  | .int n => toString n
  | .str s => s

/-- Digits of a decimal literal to a number, `none` if the character
list is empty or holds a non-digit. -/
def parseDigits : List Char → Option Nat
  | [] => none
  | cs =>
      if cs.all Char.isDigit then
        some (cs.foldl (fun acc c => acc * 10 + (c.toNat - '0'.toNat)) 0)
      else none

/-- Python `int(s)` on a string: surrounding whitespace stripped,
optional sign, then a non-empty run of decimal digits. -/
def pyIntOfStr (s : String) : Option Int :=
  match (pyStrip s).data with
  | '+' :: rest => (parseDigits rest).map Int.ofNat
  | '-' :: rest => (parseDigits rest).map (fun n => -(n : Int))
  | l => (parseDigits l).map Int.ofNat

/-- Python `int(x)`: ints pass through, bools coerce to 0/1, strings
parse as decimal literals, anything else raises (here: `none`). -/
def pyInt : Val → Option Int
  | .null => none
  | .bool b => some (if b then 1 else 0)
  | .int n => some n
  | .str s => pyIntOfStr s

/-! ## utils/dynamodb.py -/

/-- The test the builder applies per field: with `allow_remove`, a
`None` or empty-string value marks the attribute for REMOVE
(`value is None or value == ""`; in Python `x == ""` is only true
for the empty string itself). -/
def isRemoveVal (v : Val) : Bool :=
  v == .null || v == .str ""

/-- Result of `build_update_expression`: the SET fragments, the
REMOVE fragments, the `:field` value bindings, the `#field` name
bindings, and the assembled expression string. -/
structure UpdateExpr where
  updateExprParts : List String
  removeExprParts : List String
  exprAttrValues : Item
  exprAttrNames : List (String × String)
  updateExpression : String
deriving Repr, DecidableEq

/-- The per-field loop of `build_update_expression`: walks the field
list in order, appending each field either to the REMOVE parts (when
`allow_remove` and the value is null/empty) or to the SET parts with
its `:field` value binding; every field gets a `#field` name
binding. -/
def classifyFields (allowRemove : Bool) : List (String × Val) →
    List String × List String × Item × List (String × String)
  | [] => ([], [], [], [])
  | (f, v) :: rest =>
      let (s, r, vals, names) := classifyFields allowRemove rest
      if allowRemove && isRemoveVal v then
        (s, ("#" ++ f) :: r, vals, ("#" ++ f, f) :: names)
      else
        (("#" ++ f ++ " = :" ++ f) :: s, r, (":" ++ f, v) :: vals,
          ("#" ++ f, f) :: names)

/-- gateway_backend/utils/dynamodb.py `build_update_expression`:
builds the DynamoDB update expression pieces from a field map. -/
def build_update_expression (fields : List (String × Val))
    (allowRemove : Bool) : UpdateExpr :=
  let (s, r, vals, names) := classifyFields allowRemove fields
  let parts :=
    (if s ≠ [] then ["SET " ++ String.intercalate ", " s] else []) ++
    (if r ≠ [] then ["REMOVE " ++ String.intercalate ", " r] else [])
  ⟨s, r, vals, names, String.intercalate " " parts⟩

/-- Complete `update_item` parameters as `build_update_params`
assembles them.  The structured `fields`/`allowRemove` pair is kept
alongside the serialized expression: the store model interprets the
structured form, whose SET/REMOVE split provably matches the
expression parts (see the builder characterization theorem). -/
structure UpdateParams where
  keyName : String
  keyVal : Val
  fields : List (String × Val)
  allowRemove : Bool
  updateExpression : String
  exprAttrNames : List (String × String)
  exprAttrValues : Item
  conditionExpression : Option String
  returnValues : String
deriving Repr, DecidableEq

/-- gateway_backend/utils/dynamodb.py `build_update_params`. -/
def build_update_params (keyName : String) (keyVal : Val)
    (fields : List (String × Val)) (allowRemove : Bool)
    (conditionExpression : Option String) (returnValues : String) :
    UpdateParams :=
  let e := build_update_expression fields allowRemove
  { keyName := keyName
    keyVal := keyVal
    fields := fields
    allowRemove := allowRemove
    updateExpression := e.updateExpression
    exprAttrNames := e.exprAttrNames
    exprAttrValues := e.exprAttrValues
    conditionExpression := conditionExpression
    returnValues := returnValues }

/-! ## Metadata-store model (Books table) -/

/-- First record in the Books table whose `id` attribute equals the
key value (`get_item(Key={"id": ...})`). -/
def findBook : List Item → Val → Option Item
  | [], _ => none
  | it :: rest, keyVal =>
      if getField it "id" = some keyVal then some it
      else findBook rest keyVal

/-- Replace the first record whose `id` equals `keyVal` with
`newIt`, leaving all other records in place. -/
def replaceBook : List Item → Val → Item → List Item
  | [], _, _ => []
  | it :: rest, keyVal, newIt =>
      if getField it "id" = some keyVal then newIt :: rest
      else it :: replaceBook rest keyVal newIt

/-- Apply the SET/REMOVE actions of an update over one record, field
by field in list order, exactly as the update-expression loop
classified them. -/
def applyUpdateFields (allowRemove : Bool) :
    Item → List (String × Val) → Item
  | it, [] => it
  | it, (k, v) :: fs =>
      applyUpdateFields allowRemove
        (if allowRemove && isRemoveVal v then removeField it k
         else setField it k v) fs

/-- Error signalled by a conditional store write. -/
inductive StoreErr where
  | conditionalCheckFailed : StoreErr
deriving Repr, DecidableEq

/-- Modelled from the spec: the metadata-store gateway's conditional
update (`table.update_item`, spec section 4.3) is not part of this
repository.  With `ConditionExpression "attribute_exists(id)"` it
fails with `ConditionalCheckFailedException` when no record with the
key exists, creating nothing; without the condition DynamoDB
upserts, creating a record holding the key and the SET fields.  On
success it applies each SET assignment and each REMOVE deletion to
the matched record. -/
def update_item (books : List Item) (p : UpdateParams) :
    Except StoreErr (Item × List Item) :=
  match findBook books p.keyVal with
  | some it =>
      let it' := applyUpdateFields p.allowRemove it p.fields
      .ok (it', replaceBook books p.keyVal it')
  | none =>
      if p.conditionExpression = some ("attribute_exists(" ++ p.keyName ++ ")") then
        .error .conditionalCheckFailed
      else
        let it' := applyUpdateFields p.allowRemove [(p.keyName, p.keyVal)] p.fields
        .ok (it', books ++ [it'])

/-! ## utils/response.py -/

/-- An API Gateway response: status code plus the JSON body (the
CORS headers are constant and carry no verified content). -/
structure Resp where
  statusCode : Nat
  body : Item
deriving Repr, DecidableEq

/-- gateway_backend/utils/response.py `api_response`. -/
def api_response (statusCode : Nat) (body : Item) : Resp :=
  ⟨statusCode, body⟩

/-- gateway_backend/utils/response.py `error_response`. -/
def error_response (statusCode : Nat) (error message : String) : Resp :=
  api_response statusCode [("error", .str error), ("message", .str message)]

/-- gateway_backend/utils/response.py `serialize_book_response`:
fixed fields first (`read` is the caller-specific status argument),
then the optional fields copied when present.  `convert_decimal` is
the identity here because the model has no Decimal type. -/
def serialize_book_response (book_item : Item) (read_status : Bool) : Item :=
  [("id", (getField book_item "id").getD .null),
   ("name", (getField book_item "name").getD .null),
   ("created", (getField book_item "created").getD .null),
   ("read", .bool read_status),
   ("s3_url", (getField book_item "s3_url").getD .null)] ++
  (match getField book_item "author" with
   | some v => [("author", v)] | none => []) ++
  (match getField book_item "size" with
   | some v => [("size", v)] | none => []) ++
  (match getField book_item "series_name" with
   | some v => [("series_name", v)] | none => []) ++
  (match getField book_item "series_order" with
   | some v => [("series_order", v)] | none => [])

/-! ## utils/validation.py -/

/-- gateway_backend/utils/validation.py `validate_string_field`. -/
def validate_string_field (body : Item) (field : String)
    (maxLength : Nat := 500) (required : Bool := false) : Option Resp :=
  match getField body field with
  | none =>
      if required then
        some (error_response 400 "Bad Request"
          ("Field \"" ++ field ++ "\" is required"))
      else none
  | some v =>
      match v with
      | .str s =>
          if s.length > maxLength then
            some (error_response 400 "Bad Request"
              ("Field \"" ++ field ++ "\" exceeds maximum length of " ++
                toString maxLength))
          else if required && pyStrip s == "" then
            some (error_response 400 "Bad Request"
              ("Field \"" ++ field ++ "\" cannot be empty"))
          else none
      | _ =>
          some (error_response 400 "Bad Request"
            ("Field \"" ++ field ++ "\" must be a string"))

/-- gateway_backend/utils/validation.py `validate_boolean_field`. -/
def validate_boolean_field (body : Item) (field : String) : Option Resp :=
  match getField body field with
  | some (.bool _) => none
  | none => none
  | some _ =>
      some (error_response 400 "Bad Request"
        ("Field \"" ++ field ++ "\" must be a boolean"))

/-- gateway_backend/utils/validation.py `validate_series_order`:
absent and null pass; otherwise the value must coerce through
`int()` to a number between MIN_SERIES_ORDER = 1 and
MAX_SERIES_ORDER = 100. -/
def validate_series_order (body : Item)
    (field : String := "series_order") : Option Resp :=
  match getField body field with
  | none => none
  | some .null => none
  | some v =>
      match pyInt v with
      | some n =>
          if n < 1 || n > 100 then
            some (error_response 400 "Bad Request"
              "series_order must be between 1 and 100")
          else none
      | none =>
          some (error_response 400 "Bad Request"
            "series_order must be an integer")

/-! ## utils/auth.py and the request event -/

/-- An API Gateway event as the handlers consume it: the Cognito
claims (subject and groups, the latter already split from the
comma-separated claim string), the decoded `id` path parameter, and
the parsed JSON body. -/
structure Event where
  userId : Option String
  groups : List String
  pathId : Option String
  body : Item

/-- gateway_backend/utils/auth.py `get_user_id`. -/
def get_user_id (e : Event) : Option String := e.userId

/-- gateway_backend/utils/auth.py `is_admin`: membership of
"admins" in the group list. -/
def is_admin (e : Event) : Bool := e.groups.contains "admins"

/-! ## Database state and external-call oracles -/

/-- A UserBooks row: composite key (userId, bookId), the read flag
and the update timestamp, exactly the shape `_update_user_book_status`
writes. -/
structure UserRow where
  userId : String
  bookId : String
  read : Bool
  updated : String
deriving Repr, DecidableEq

/-- The two DynamoDB tables. -/
structure DB where
  books : List Item
  userBooks : List UserRow
deriving Repr, DecidableEq

/-- DynamoDB `put_item` on UserBooks: full replace of the row with
the same composite key, else append. -/
def putUserRow : List UserRow → UserRow → List UserRow
  | [], r => [r]
  | x :: xs, r =>
      if x.userId = r.userId ∧ x.bookId = r.bookId then r :: xs
      else x :: putUserRow xs r

/-- The parameters the upload handler passes to
`generate_presigned_url`.  The gateway interface also accepts blob
tags; a call that attaches none has `tags = []`. -/
structure PresignCall where
  op : String
  bucket : String
  key : String
  contentType : String
  tags : List (String × String)
  expiresIn : Int
deriving Repr, DecidableEq

/-- External collaborators as deterministic oracles: the clock, the
cover-lookup service (`fetch_cover_url`, whose HTTP internals sit
behind this function), and presigned-URL generation. -/
structure Env where
  now : String
  cover : String → Option String → Option String
  presign : PresignCall → String

/-- gateway_backend/utils/cover.py `update_cover_on_author_change`:
fetches a new cover only when the new author is non-empty and
differs from the current one; a hit sets `coverImageUrl`, a miss
sets it to null (to be removed).  The second component records the
`fetch_cover_url` invocations this call performed. -/
def update_cover_on_author_change (env : Env) (current_author : Val)
    (new_author : String) (title : String) (fields : Item) :
    Item × List (String × String) :=
  if new_author ≠ "" ∧ Val.str new_author ≠ current_author then
    match env.cover title (some new_author) with
    | some url => (setField fields "coverImageUrl" (.str url), [(title, new_author)])
    | none => (setField fields "coverImageUrl" .null, [(title, new_author)])
  else (fields, [])

/-- Python `current_book.get("name", book_id)` as the title passed
to the cover lookup (stored names are strings; `pyStr` covers the
degenerate cases totally). -/
def titleOf (current_book : Item) (book_id : String) : String :=
  match getField current_book "name" with
  | some v => pyStr v
  | none => book_id

/-- Python `dict.update`: assign every binding of `fs` into `d` in
order. -/
def dictUpdate (d : Item) (fs : Item) : Item :=
  fs.foldl (fun a p => setField a p.1 p.2) d

/-! ## handlers/book_handlers.py -/

/-- Result of a state-changing handler: the HTTP response, the
database afterwards, and the cover-lookup calls performed. -/
structure HandlerOut where
  resp : Resp
  db : DB
  coverCalls : List (String × String)
deriving Repr, DecidableEq

/-- book_handlers.py `_update_user_book_status`: full-replace put of
the caller's row (its own errors are swallowed; the deterministic
store model always succeeds). -/
def _update_user_book_status (env : Env) (db : DB) (uid bid : String)
    (read : Bool) : DB :=
  { db with userBooks := putUserRow db.userBooks ⟨uid, bid, read, env.now⟩ }

/-- book_handlers.py `_update_book_metadata`: conditional update of
the Books record with `allow_remove=True` and
`attribute_exists(id)`. -/
def _update_book_metadata (books : List Item) (book_id : String)
    (metadata_fields : List (String × Val)) :
    Except StoreErr (Item × List Item) :=
  update_item books
    (build_update_params "id" (.str book_id) metadata_fields true
      (some "attribute_exists(id)") "ALL_NEW")

/-- The field-validation sequence of `update_book_handler`
(book_handlers.py lines 302 to 325), short-circuiting at the first
rejection.  The non-string arm of the name-emptiness check is
unreachable: `validate_string_field` has already pinned name to a
string. -/
def update_validate (body : Item) : Option Resp :=
  match validate_boolean_field body "read" with
  | some e => some e
  | none =>
  match validate_string_field body "author" 500 false with
  | some e => some e
  | none =>
  match validate_string_field body "name" 500 false with
  | some e => some e
  | none =>
  match validate_string_field body "series_name" 500 false with
  | some e => some e
  | none =>
  match getField body "name" with
  | some (.str s) =>
      if pyStrip s = "" then
        some (error_response 400 "Bad Request" "Field \"name\" cannot be empty")
      else validate_series_order body "series_order"
  | some _ => validate_series_order body "series_order"
  | none => validate_series_order body "series_order"

/-- `user_specific_fields` (book_handlers.py lines 331-332):
`bool(body["read"])` when supplied. -/
def update_collect_user_fields (body : Item) : Item :=
  match getField body "read" with
  | some v => [("read", .bool (pyTruthy v))]
  | none => []

/-- The author entry of `book_metadata_fields`
(`str(body["author"])` when supplied). -/
def bmfAuthor (body : Item) : Item :=
  match getField body "author" with
  | some v => [("author", .str (pyStr v))]
  | none => []

/-- The name entry of `book_metadata_fields`. -/
def bmfName (body : Item) : Item :=
  match getField body "name" with
  | some v => [("name", .str (pyStr v))]
  | none => []

/-- The series_name entry of `book_metadata_fields`. -/
def bmfSeriesName (body : Item) : Item :=
  match getField body "series_name" with
  | some v => [("series_name", .str (pyStr v))]
  | none => []

/-- The series_order entry of `book_metadata_fields`: null (to be
removed) when null or empty, else through `int()` (whose failure arm
is unreachable after `validate_series_order`). -/
def bmfSeriesOrder (body : Item) : Item :=
  match getField body "series_order" with
  | none => []
  | some v =>
      if v == .null || v == .str "" then [("series_order", .null)]
      else
        match pyInt v with
        | some n => [("series_order", .int n)]
        | none => []

/-- `book_metadata_fields` (book_handlers.py lines 333-344), the
four optional entries in body order. -/
def update_collect_metadata_fields (body : Item) : Item :=
  bmfAuthor body ++ bmfName body ++ bmfSeriesName body ++ bmfSeriesOrder body

/-- `user_specific_fields.get("read", False)`. -/
def readOf (usf : Item) : Bool :=
  match getField usf "read" with
  | some (.bool b) => b
  | _ => false

/-- The cover pre-check of `update_book_handler` (lines 358-374):
when the body carries `author`, fetch the current record and let
`update_cover_on_author_change` decide whether to refresh
`coverImageUrl` in the field map (a missing record or a failed get
leaves the fields untouched). -/
def update_cover_phase (env : Env) (books : List Item) (bid : String)
    (bmf : Item) : Item × List (String × String) :=
  if (getField bmf "author").isSome then
    match findBook books (.str bid) with
    | some current_book =>
        let current_author := (getField current_book "author").getD (.str "")
        let title := titleOf current_book bid
        let new_author := pyStr ((getField bmf "author").getD .null)
        update_cover_on_author_change env current_author new_author title bmf
    | none => (bmf, [])
  else (bmf, [])

/-- book_handlers.py `update_book_handler`: auth, path id, body
validation, split into user-specific and metadata fields, best-effort
UserBooks write, optional cover refresh when the author changes, and
the conditional Books update surfaced as 404 when the record is
gone. -/
def update_book_handler (env : Env) (e : Event) (db : DB) : HandlerOut :=
  match get_user_id e with
  | none => ⟨error_response 401 "Unauthorized" "User not authenticated", db, []⟩
  | some uid =>
  match e.pathId with
  | none => ⟨error_response 400 "Bad Request" "Id is required in path", db, []⟩
  | some bid =>
  match update_validate e.body with
  | some err => ⟨err, db, []⟩
  | none =>
  let usf := update_collect_user_fields e.body
  let bmf := update_collect_metadata_fields e.body
  if usf = [] ∧ bmf = [] then
    ⟨error_response 400 "Bad Request" "No valid fields to update", db, []⟩
  else
    let db1 := if usf = [] then db
               else _update_user_book_status env db uid bid (readOf usf)
    if bmf = [] then
      match findBook db1.books (.str bid) with
      | none =>
          ⟨error_response 404 "Not Found" ("Book \"" ++ bid ++ "\" not found"),
            db1, []⟩
      | some it =>
          let read_status := if usf = [] then false else readOf usf
          ⟨api_response 200 (serialize_book_response it read_status), db1, []⟩
    else
      let fc := update_cover_phase env db1.books bid bmf
      match _update_book_metadata db1.books bid fc.1 with
      | .error .conditionalCheckFailed =>
          ⟨error_response 404 "Not Found" ("Book \"" ++ bid ++ "\" not found"),
            db1, fc.2⟩
      | .ok (updated, books2) =>
          let read_status := if usf = [] then false else readOf usf
          ⟨api_response 200 (serialize_book_response updated read_status),
            { db1 with books := books2 }, fc.2⟩

/-! ## list_handler -/

/-- Lookup in the read-status dict. -/
def lookupAssoc : List (String × Bool) → String → Option Bool
  | [], _ => none
  | (k', b) :: rest, k => if k' = k then some b else lookupAssoc rest k

/-- Dict assignment in the read-status dict (later assignments of a
key overwrite earlier ones). -/
def setAssoc : List (String × Bool) → String → Bool → List (String × Bool)
  | [], k, b => [(k, b)]
  | (k', b') :: rest, k, b =>
      if k' = k then (k, b) :: rest else (k', b') :: setAssoc rest k b

/-- book_handlers.py `_get_user_read_statuses`: query the UserBooks
table by the caller's userId and build the bookId-to-read dict. -/
def _get_user_read_statuses (db : DB) (uid : String) : List (String × Bool) :=
  (db.userBooks.filter (fun r => r.userId == uid)).foldl
    (fun d r => setAssoc d r.bookId r.read) []

/-- The sort key `x.get("created", "")` of a serialized book (the
serialized dict always carries "created"; a string value is the
invariant of ingested records). -/
def sortKeyOf (b : Item) : String :=
  match getField b "created" with
  | some (.str s) => s
  | _ => ""

/-- `user_read_status.get(item.get("id"), False)` for one item. -/
def readStatusForItem (statuses : List (String × Bool)) (it : Item) : Bool :=
  match getField it "id" with
  | some (.str s) => (lookupAssoc statuses s).getD false
  | _ => false

/-- Result of the list handler: status, the books array, and the
isAdmin flag. -/
structure ListOut where
  statusCode : Nat
  books : List Item
  isAdmin : Bool
deriving Repr, DecidableEq

/-- book_handlers.py `list_handler`: scan Books (pagination already
flattened by the loop), merge the caller's read statuses in, sort by
created descending (Python stable sort with reverse=True). -/
def list_handler (e : Event) (db : DB) : ListOut :=
  match get_user_id e with
  | none => ⟨401, [], false⟩
  | some uid =>
      let statuses := _get_user_read_statuses db uid
      let books := db.books.map
        (fun it => serialize_book_response it (readStatusForItem statuses it))
      ⟨200, books.mergeSort (fun a b => decide (sortKeyOf b ≤ sortKeyOf a)),
        is_admin e⟩

/-! ## handlers/admin_handlers.py (upload) -/

/-- config.py constants. -/
def URL_EXPIRY_SECONDS : Int := 3600

/-- config.py `MAX_FILE_SIZE_BYTES = 5 * 1024 * 1024 * 1024`. -/
def MAX_FILE_SIZE_BYTES : Int := 5 * 1024 * 1024 * 1024

/-- config.py `BUCKET_NAME` (environment default). -/
def BUCKET_NAME : String := "YOUR_BUCKET"

/-- config.py books key namespace, environment default "books/". -/
def BOOKS_KEYSPACE : String := "books/"

/-- `os.path.basename` on a POSIX path: everything after the last
slash (the accumulator resets at each slash). -/
def pyBasename (s : String) : String :=
  ⟨s.data.foldl (fun acc c => if c = '/' then [] else acc ++ [c]) []⟩

/-- The numeric reading of `fileSize` for the `>` comparison (Python
bool is an int; other non-int types make the comparison raise, which
the handler's outer catch turns into a 500). -/
def fileSizeNum : Val → Option Int
  | .int n => some n
  | .bool b => some (if b then 1 else 0)
  | _ => none

/-- Result of the upload handler: the response plus the presign
request issued, if any. -/
structure UploadOut where
  resp : Resp
  presign : Option PresignCall
deriving Repr, DecidableEq

/-- admin_handlers.py `upload_handler`: admin gate, filename
validation (.zip, case-insensitive), path sanitisation via basename,
optional author validation/echo, size cap, then the presigned PUT
request with bucket, key and content type only — the code explicitly
passes no metadata or tags with the presigned request. -/
def upload_handler (env : Env) (e : Event) : UploadOut :=
  if !(is_admin e) then
    ⟨error_response 403 "Forbidden" "Only administrators can upload books", none⟩
  else
    let body := e.body
    let filenameV := (getField body "filename").getD .null
    if !(pyTruthy filenameV) then
      ⟨error_response 400 "Bad Request" "filename is required", none⟩
    else
      match filenameV with
      | .str f0 =>
          if !(strEndsWith (pyLower f0) ".zip") then
            ⟨error_response 400 "Bad Request" "Only .zip files are allowed", none⟩
          else
            let f := pyBasename f0
            match validate_string_field body "author" 500 false with
            | some err => ⟨err, none⟩
            | none =>
                let author :=
                  pyStrip (match getField body "author" with
                   | some (.str s) => s
                   | _ => "")
                match fileSizeNum ((getField body "fileSize").getD (.int 0)) with
                | some file_size =>
                    if file_size > MAX_FILE_SIZE_BYTES then
                      ⟨error_response 400 "Bad Request"
                        "File size exceeds maximum limit of 5GB", none⟩
                    else
                      let s3_key := BOOKS_KEYSPACE ++ f
                      let call : PresignCall :=
                        ⟨"put_object", BUCKET_NAME, s3_key, "application/zip",
                          [], URL_EXPIRY_SECONDS⟩
                      let respBody :=
                        [("uploadUrl", .str (env.presign call)),
                         ("method", .str "PUT"),
                         ("filename", .str f),
                         ("s3Key", .str s3_key),
                         ("expiresIn", .int URL_EXPIRY_SECONDS)] ++
                        (if author ≠ "" then [("author", .str author)] else [])
                      ⟨api_response 200 respBody, some call⟩
                | none =>
                    ⟨error_response 500 "Internal Server Error"
                      "unorderable fileSize type", none⟩
      | _ =>
          ⟨error_response 500 "Internal Server Error"
            "filename has no lower attribute", none⟩

/-! ## handlers/s3_handlers.py (set_upload_metadata) -/

/-- The validation sequence of `set_upload_metadata_handler`
(author, series_name, series_order). -/
def smh_validate (body : Item) : Option Resp :=
  match validate_string_field body "author" 500 false with
  | some e => some e
  | none =>
  match validate_string_field body "series_name" 500 false with
  | some e => some e
  | none => validate_series_order body "series_order"

/-- Python `body.get(field, "").strip()` on a validated string
field. -/
def strippedStrField (body : Item) (field : String) : String :=
  pyStrip (match getField body field with
   | some (.str s) => s
   | _ => "")

/-- The author entry of the set-upload-metadata field map. -/
def smhAuthor (body : Item) : Item :=
  if strippedStrField body "author" ≠ "" then
    [("author", .str (strippedStrField body "author"))]
  else []

/-- The series_name entry of the set-upload-metadata field map. -/
def smhSeriesName (body : Item) : Item :=
  if strippedStrField body "series_name" ≠ "" then
    [("series_name", .str (strippedStrField body "series_name"))]
  else []

/-- The series_order entry of the set-upload-metadata field map
(through `int()` when not None). -/
def smhSeriesOrder (body : Item) : Item :=
  match getField body "series_order" with
  | none => []
  | some .null => []
  | some v =>
      match pyInt v with
      | some n => [("series_order", .int n)]
      | none => []

/-- `metadata_fields` of `set_upload_metadata_handler`
(s3_handlers.py lines 266-272): non-empty stripped author and
series_name, and series_order through `int()` when not None. -/
def smh_collect (body : Item) : Item :=
  smhAuthor body ++ smhSeriesName body ++ smhSeriesOrder body

/-- s3_handlers.py `set_upload_metadata_handler`: admin gate, bookId
presence, field validation, no-op success when nothing is to be set,
cover refresh when the author changes, then a conditional
`allow_remove` update of the Books record (404 when absent). -/
def set_upload_metadata_handler (env : Env) (e : Event) (db : DB) : HandlerOut :=
  if !(is_admin e) then
    ⟨error_response 403 "Forbidden"
      "Only administrators can set upload metadata", db, []⟩
  else
    let body := e.body
    let bookIdV := (getField body "bookId").getD .null
    if !(pyTruthy bookIdV) then
      ⟨error_response 400 "Bad Request" "bookId is required", db, []⟩
    else
      match smh_validate body with
      | some err => ⟨err, db, []⟩
      | none =>
        let author := strippedStrField body "author"
        let fields0 := smh_collect body
        if fields0 = [] then
          ⟨api_response 200 [("message", .str "No metadata to update")], db, []⟩
        else
          match findBook db.books bookIdV with
          | none =>
              ⟨error_response 404 "Not Found"
                ("Book with id " ++ pyStr bookIdV ++ " not found"), db, []⟩
          | some current_book =>
              let current_author := (getField current_book "author").getD (.str "")
              let title := titleOf current_book (pyStr bookIdV)
              let fc :=
                if author ≠ "" then
                  update_cover_on_author_change env current_author author title fields0
                else (fields0, [])
              match update_item db.books
                  (build_update_params "id" bookIdV fc.1 true
                    (some "attribute_exists(id)") "NONE") with
              | .error .conditionalCheckFailed =>
                  ⟨error_response 404 "Not Found"
                    ("Book with id " ++ pyStr bookIdV ++ " not found"), db, fc.2⟩
              | .ok (_, books2) =>
                  ⟨api_response 200
                    (dictUpdate
                      [("message", .str "Metadata updated successfully"),
                       ("bookId", bookIdV)] fc.1),
                    { db with books := books2 }, fc.2⟩

/-! ## handlers/s3_handlers.py (ingest trigger) -/

/-- One record of an S3 put event, together with the outcomes of the
external calls its processing performs: the tag fetch (a ClientError
is swallowed), whether the DynamoDB put fails (swallowed, record
skipped), and whether some unexpected exception aborts the whole
loop (caught by the handler's outer catch). -/
structure S3Rec where
  bucket : Option String
  key : String
  size : Int
  tagging : Except Unit (List (String × String))
  putFails : Bool
  raises : Bool

/-- An S3 trigger event. -/
structure S3Event where
  records : List S3Rec

/-- s3_handlers.py `_extract_book_metadata`: split "Author - Title"
at the first " - " separator. -/
def _extract_book_metadata (filename : String) : Item :=
  match filename.splitOn " - " with
  | p :: q :: rest =>
      [("author", .str (pyStrip p)),
       ("name", .str (pyStrip (String.intercalate " - " (q :: rest))))]
  | _ => [("name", .str filename)]

/-- DynamoDB `put_item` on Books: full replace of the record with
the same id, else append. -/
def putBook (books : List Item) (it : Item) : List Item :=
  let idv := (getField it "id").getD .null
  if (findBook books idv).isSome then replaceBook books idv it
  else books ++ [it]

/-- Processing of one S3 record by the trigger handler: parse the
event (the key arrives URL-decoded, with "+" replaced by spaces),
derive id/name from the filename, overlay the blob tags when the tag
fetch succeeds, attempt the cover lookup, and put the record
(skipping the record when the put fails). -/
def ingestRecord (env : Env) (db : DB) (r : S3Rec) : DB :=
  match r.bucket with
  | none => db
  | some bucket =>
    let s3_key := r.key.replace "+" " "
    if bucket = "" ∨ s3_key = "" then db
    else
      let filename := (s3_key.splitOn "/").getLastD s3_key
      let friendly_name := filename.replace ".zip" ""
      let book_id := filename.replace ".zip" ""
      let s3_url := "s3://" ++ bucket ++ "/" ++ s3_key
      let item0 : Item :=
        [("id", .str book_id), ("s3_url", .str s3_url),
         ("name", .str friendly_name), ("created", .str env.now),
         ("read", .bool false), ("size", .int r.size)]
      let item1 := dictUpdate item0 (_extract_book_metadata friendly_name)
      let item2 :=
        match r.tagging with
        | .error _ => item1
        | .ok tags =>
            tags.foldl (fun it tag =>
              if tag.1 = "author" ∧ tag.2 ≠ "" then
                setField it "author" (.str tag.2)
              else if tag.1 = "series_name" ∧ tag.2 ≠ "" then
                setField it "series_name" (.str tag.2)
              else if tag.1 = "series_order" ∧ tag.2 ≠ "" then
                match pyIntOfStr tag.2 with
                | some n => setField it "series_order" (.int n)
                | none => it
              else it) item1
      let title :=
        match getField item2 "name" with
        | some (.str s) => s
        | _ => ""
      let author :=
        match getField item2 "author" with
        | some (.str s) => some s
        | _ => none
      let item3 :=
        match env.cover title author with
        | some url => setField item2 "coverImageUrl" (.str url)
        | none => item2
      if r.putFails then db else { db with books := putBook db.books item3 }

/-- The record loop of `s3_trigger_handler`: an unexpected exception
aborts the loop (keeping the writes already made); every anticipated
failure is swallowed per record. -/
def processRecords (env : Env) : DB → List S3Rec → DB × Option String
  | db, [] => (db, none)
  | db, r :: rest =>
      if r.raises then (db, some "internal error")
      else processRecords env (ingestRecord env db r) rest

/-- s3_handlers.py `s3_trigger_handler`: acknowledges with 200 both
on clean completion and from the outer exception catch, to prevent
source-side redelivery. -/
def s3_trigger_handler (env : Env) (ev : S3Event) (db : DB) : HandlerOut :=
  match processRecords env db ev.records with
  | (db1, none) =>
      ⟨api_response 200 [("message", .str "Successfully processed S3 events")],
        db1, []⟩
  | (db1, some err) =>
      ⟨api_response 200
        [("message", .str "Completed with errors"), ("error", .str err)],
        db1, []⟩

/-- Concrete witness data shared by the final theorems. -/
def wEnvNone : Env := ⟨"2024-01-01T00:00:00Z", fun _ _ => none, fun _ => "signed-url"⟩

/-- Environment whose cover lookup always returns a hit. -/
def wEnvHit : Env :=
  ⟨"2024-01-01T00:00:00Z", fun _ _ => some "https://img", fun _ => "signed-url"⟩

/-- A stored Books record used by the concrete witnesses. -/
def wBookA : Item :=
  [("id", .str "book-a"), ("name", .str "Foundation"),
   ("created", .str "2023-06-15T10:30:00Z"),
   ("s3_url", .str "s3://b/books/book-a.zip"),
   ("author", .str "Old Author")]

/-- A database with one book and one UserBooks row (user u1 has read
book-a). -/
def wDbA : DB := ⟨[wBookA], [⟨"u1", "book-a", true, "t0"⟩]⟩

/-- Update event naming a book id absent from the store. -/
def wEvMissing : Event :=
  ⟨some "u1", [], some "missing", [("author", .str "New Author")]⟩

/-- Update event whose body supplies only `read`. -/
def wEvRead : Event := ⟨some "u1", [], some "book-a", [("read", .bool true)]⟩

/-- Update event whose body supplies only `author`. -/
def wEvAuthor : Event :=
  ⟨some "u1", [], some "book-a", [("author", .str "New Author")]⟩

/-- Update event whose body supplies an empty author string. -/
def wEvEmptyAuthor : Event :=
  ⟨some "u1", [], some "book-a", [("author", .str "")]⟩

/-- List event for user u1. -/
def wEvList : Event := ⟨some "u1", [], none, []⟩

/-- Admin upload event with author metadata supplied. -/
def wEvUpload : Event :=
  ⟨some "admin", ["admins"], none,
    [("filename", .str "Book.zip"), ("author", .str "Jane Doe"),
     ("fileSize", .int 100)]⟩

/-- Admin upload event whose filename attempts path traversal. -/
def wEvUploadTraversal : Event :=
  ⟨some "admin", ["admins"], none,
    [("filename", .str "../../etc/Secret.zip"), ("fileSize", .int 0)]⟩

/-- Admin set-upload-metadata event with author and series order. -/
def wEvSmh : Event :=
  ⟨some "admin", ["admins"], none,
    [("bookId", .str "book-a"), ("author", .str "New Author"),
     ("series_order", .str "5")]⟩

/-- Admin set-upload-metadata event with nothing to set (author
blank). -/
def wEvSmhEmpty : Event :=
  ⟨some "admin", ["admins"], none,
    [("bookId", .str "book-a"), ("author", .str "  ")]⟩

/-- The read value the List contract predicts for one item: the
caller's own UserBooks row for that book id, or false when no such
row exists. -/
def callerReadStatus (db : DB) (uid : String) (it : Item) : Bool :=
  match getField it "id" with
  | some (.str s) =>
      match (db.userBooks.filter (fun r => r.userId == uid)).find?
          (fun r => r.bookId == s) with
      | some r => r.read
      | none => false
  | _ => false

/-! ## Dictionary and store lemmas -/

theorem getField_setField_self (it : Item) (k : String) (v : Val) :
    getField (setField it k v) k = some v := by
  induction it with
  | nil => simp [setField, getField]
  | cons p rest ih =>
      obtain ⟨k0, v0⟩ := p
      by_cases h : k0 = k
      · simp [setField, getField, h]
      · simp [setField, getField, h, ih]

theorem getField_setField_ne (it : Item) (k k' : String) (v : Val)
    (h : k' ≠ k) : getField (setField it k v) k' = getField it k' := by
  induction it with
  | nil => simp [setField, getField, Ne.symm h]
  | cons p rest ih =>
      obtain ⟨k0, v0⟩ := p
      by_cases hp : k0 = k
      · subst hp
        simp [setField, getField, Ne.symm h]
      · by_cases hp' : k0 = k'
        · simp [setField, getField, hp, hp', h]
        · simp [setField, getField, hp, hp', ih]

theorem getField_removeField_self (it : Item) (k : String) :
    getField (removeField it k) k = none := by
  induction it with
  | nil => simp [removeField, getField]
  | cons p rest ih =>
      obtain ⟨k0, v0⟩ := p
      by_cases h : k0 = k
      · simpa [removeField, h] using ih
      · simpa [removeField, getField, h] using ih

theorem getField_removeField_ne (it : Item) (k k' : String)
    (h : k' ≠ k) : getField (removeField it k) k' = getField it k' := by
  induction it with
  | nil => simp [removeField]
  | cons p rest ih =>
      obtain ⟨k0, v0⟩ := p
      by_cases hp : k0 = k
      · subst hp
        simp [removeField, getField, Ne.symm h, ih]
      · by_cases hp' : k0 = k'
        · simp [removeField, getField, hp, hp', h]
        · simp [removeField, getField, hp, hp', ih]

theorem setField_eq_self (it : Item) (k : String) (v : Val)
    (h : getField it k = some v) : setField it k v = it := by
  induction it with
  | nil => simp [getField] at h
  | cons p rest ih =>
      obtain ⟨k0, v0⟩ := p
      by_cases hp : k0 = k
      · subst hp
        simp [getField] at h
        simp [setField, h]
      · simp only [getField, hp, if_neg, Bool.false_eq_true] at h
        simp [setField, hp, ih h]

theorem removeField_eq_self (it : Item) (k : String)
    (h : getField it k = none) : removeField it k = it := by
  induction it with
  | nil => simp [removeField]
  | cons p rest ih =>
      obtain ⟨k0, v0⟩ := p
      by_cases hp : k0 = k
      · subst hp
        simp [getField] at h
      · simp only [getField, hp, if_neg, Bool.false_eq_true] at h
        simp [removeField, hp, ih h]

theorem getField_applyUpdateFields (ar : Bool) (fs : List (String × Val)) :
    ∀ (it : Item) (k : String),
    getField (applyUpdateFields ar it fs) k =
      match lastVal fs k with
      | some v => if ar && isRemoveVal v then none else some v
      | none => getField it k := by
  induction fs with
  | nil => intro it k; simp [applyUpdateFields, lastVal]
  | cons p rest ih =>
      intro it k
      obtain ⟨k0, v0⟩ := p
      simp only [applyUpdateFields, lastVal]
      rw [ih]
      cases hl : lastVal rest k with
      | some w => simp
      | none =>
          simp only []
          by_cases hk : k0 = k
          · subst hk
            by_cases hr : ar && isRemoveVal v0
            · simp [hr, getField_removeField_self]
            · simp [hr, getField_setField_self]
          · have hk' : k ≠ k0 := Ne.symm hk
            by_cases hr : ar && isRemoveVal v0
            · simp [hr, hk, getField_removeField_ne _ _ _ hk']
            · simp [hr, hk, getField_setField_ne _ _ _ _ hk']

theorem applyUpdateFields_eq_self (ar : Bool) (fs : List (String × Val))
    (it : Item)
    (h : ∀ p ∈ fs, (ar && isRemoveVal p.2) = false ∧
      getField it p.1 = some p.2) :
    applyUpdateFields ar it fs = it := by
  induction fs with
  | nil => simp [applyUpdateFields]
  | cons p rest ih =>
      obtain ⟨hrem, hget⟩ := h p (by simp)
      simp only [applyUpdateFields, hrem, Bool.false_eq_true, if_neg,
        setField_eq_self it p.1 p.2 hget]
      exact ih (fun q hq => h q (by simp [hq]))

theorem findBook_replaceBook (books : List Item) (k : Val) (x : Item)
    (hid : getField x "id" = some k)
    (h : (findBook books k).isSome) :
    findBook (replaceBook books k x) k = some x := by
  induction books with
  | nil => simp [findBook] at h
  | cons it rest ih =>
      by_cases hit : getField it "id" = some k
      · simp [replaceBook, findBook, hit, hid]
      · simp only [findBook, hit, if_neg, not_false_eq_true] at h
        simp [replaceBook, findBook, hit, ih h]

theorem replaceBook_self (books : List Item) (k : Val) (it : Item)
    (h : findBook books k = some it) : replaceBook books k it = books := by
  induction books with
  | nil => simp [findBook] at h
  | cons b rest ih =>
      by_cases hb : getField b "id" = some k
      · simp [findBook, hb] at h
        subst h
        simp [replaceBook, hb]

      · simp only [findBook, hb, if_neg, not_false_eq_true] at h
        simp [replaceBook, hb, ih h]


theorem lookupAssoc_setAssoc_self (d : List (String × Bool)) (k : String)
    (b : Bool) : lookupAssoc (setAssoc d k b) k = some b := by
  induction d with
  | nil => simp [setAssoc, lookupAssoc]
  | cons p rest ih =>
      obtain ⟨k0, b0⟩ := p
      by_cases h : k0 = k
      · simp [setAssoc, lookupAssoc, h]
      · simp [setAssoc, lookupAssoc, h, ih]

theorem lookupAssoc_setAssoc_ne (d : List (String × Bool)) (k k' : String)
    (b : Bool) (h : k' ≠ k) :
    lookupAssoc (setAssoc d k b) k' = lookupAssoc d k' := by
  induction d with
  | nil => simp [setAssoc, lookupAssoc, Ne.symm h]
  | cons p rest ih =>
      obtain ⟨k0, b0⟩ := p
      by_cases hp : k0 = k
      · subst hp
        simp [setAssoc, lookupAssoc, Ne.symm h]
      · by_cases hp' : k0 = k'
        · simp [setAssoc, lookupAssoc, hp, hp', h]
        · simp [setAssoc, lookupAssoc, hp, hp', ih]

theorem lookup_fold_notmem (rows : List UserRow) (k : String)
    (hk : ∀ r ∈ rows, r.bookId ≠ k) :
    ∀ acc, lookupAssoc
        (rows.foldl (fun d r => setAssoc d r.bookId r.read) acc) k =
      lookupAssoc acc k := by
  induction rows with
  | nil => intro acc; rfl
  | cons r rs ih =>
      intro acc
      have h1 : r.bookId ≠ k := hk r (by simp)
      rw [List.foldl_cons, ih (fun q hq => hk q (by simp [hq]))]
      exact lookupAssoc_setAssoc_ne acc r.bookId k r.read (Ne.symm h1)

/-- The dict `_get_user_read_statuses` builds answers lookups with
the first matching row, provided the rows carry no duplicate book
id. -/
theorem lookup_fold_statuses (rows : List UserRow) (k : String)
    (hnd : (rows.map (fun r => r.bookId)).Nodup) :
    ∀ acc, lookupAssoc
        (rows.foldl (fun d r => setAssoc d r.bookId r.read) acc) k =
      match rows.find? (fun r => r.bookId == k) with
      | some r => some r.read
      | none => lookupAssoc acc k := by
  induction rows with
  | nil => intro acc; rfl
  | cons r rs ih =>
      intro acc
      rw [List.map_cons, List.nodup_cons] at hnd
      by_cases hk : r.bookId = k
      · subst hk
        have hnotin : ∀ q ∈ rs, q.bookId ≠ r.bookId := by
          intro q hq hcontra
          exact hnd.1 (List.mem_map.mpr ⟨q, hq, hcontra⟩)
        rw [List.foldl_cons, lookup_fold_notmem rs r.bookId hnotin]
        simp [List.find?, lookupAssoc_setAssoc_self]
      · rw [List.foldl_cons, ih hnd.2]
        have hbeq : (r.bookId == k) = false := by simp [hk]
        simp only [List.find?, hbeq]
        cases hfind : rs.find? (fun q => q.bookId == k) with
        | some q => simp
        | none =>
            simp [lookupAssoc_setAssoc_ne acc r.bookId k r.read (Ne.symm hk)]

/-- The read status the list handler merges per item equals the
caller-row prediction. -/
theorem readStatus_eq_caller (db : DB) (uid : String) (it : Item)
    (hnd : ((db.userBooks.filter (fun r => r.userId == uid)).map
      (fun r => r.bookId)).Nodup) :
    readStatusForItem (_get_user_read_statuses db uid) it =
      callerReadStatus db uid it := by
  unfold readStatusForItem callerReadStatus _get_user_read_statuses
  cases hid : getField it "id" with
  | none => rfl
  | some v =>
      cases v with
      | str s =>
          show (lookupAssoc ((db.userBooks.filter
              (fun r => r.userId == uid)).foldl
              (fun d r => setAssoc d r.bookId r.read) []) s).getD false = _
          rw [lookup_fold_statuses _ s hnd []]
          cases hfind : (db.userBooks.filter (fun r => r.userId == uid)).find?
              (fun r => r.bookId == s) with
          | some r => simp [hfind]
          | none => simp [hfind, lookupAssoc]
      | null => rfl
      | bool b => rfl
      | int n => rfl


theorem findBook_some_id (books : List Item) (k : Val) (it : Item)
    (h : findBook books k = some it) : getField it "id" = some k := by
  induction books with
  | nil => simp [findBook] at h
  | cons b rest ih =>
      by_cases hb : getField b "id" = some k
      · simp [findBook, hb] at h
        rw [← h]; exact hb
      · simp only [findBook, hb, if_neg, not_false_eq_true] at h
        exact ih h

theorem lastVal_append (xs ys : Item) (k : String) :
    lastVal (xs ++ ys) k =
      match lastVal ys k with
      | some v => some v
      | none => lastVal xs k := by
  induction xs with
  | nil =>
      simp only [List.nil_append, lastVal]
      cases h : lastVal ys k <;> simp
  | cons p rest ih =>
      obtain ⟨k0, v0⟩ := p
      simp only [List.cons_append, lastVal, List.append_eq]
      rw [ih]
      cases h : lastVal ys k <;> simp [lastVal]

theorem lastVal_setField_ne (d : Item) (k k' : String) (v : Val)
    (h : k' ≠ k) : lastVal (setField d k v) k' = lastVal d k' := by
  induction d with
  | nil => simp [setField, lastVal, Ne.symm h]
  | cons p rest ih =>
      obtain ⟨k0, v0⟩ := p
      by_cases hp : k0 = k
      · subst hp
        simp [setField, lastVal, Ne.symm h, ih]
      · simp [setField, lastVal, hp, ih]

theorem lastVal_bmfAuthor (body : Item) (k : String) (h : k ≠ "author") :
    lastVal (bmfAuthor body) k = none := by
  unfold bmfAuthor
  cases getField body "author" <;> simp [lastVal, Ne.symm h]

theorem lastVal_bmfName (body : Item) (k : String) (h : k ≠ "name") :
    lastVal (bmfName body) k = none := by
  unfold bmfName
  cases getField body "name" <;> simp [lastVal, Ne.symm h]

theorem lastVal_bmfSeriesName (body : Item) (k : String)
    (h : k ≠ "series_name") : lastVal (bmfSeriesName body) k = none := by
  unfold bmfSeriesName
  cases getField body "series_name" <;> simp [lastVal, Ne.symm h]

theorem lastVal_bmfSeriesOrder (body : Item) (k : String)
    (h : k ≠ "series_order") : lastVal (bmfSeriesOrder body) k = none := by
  unfold bmfSeriesOrder
  cases getField body "series_order" with
  | none => simp [lastVal]
  | some v =>
      simp only []
      split
      · simp [lastVal, Ne.symm h]
      · cases pyInt v <;> simp [lastVal, Ne.symm h]

theorem lastVal_bmf_id (body : Item) :
    lastVal (update_collect_metadata_fields body) "id" = none := by
  unfold update_collect_metadata_fields
  simp [lastVal_append, lastVal_bmfAuthor body "id" (by decide),
    lastVal_bmfName body "id" (by decide),
    lastVal_bmfSeriesName body "id" (by decide),
    lastVal_bmfSeriesOrder body "id" (by decide)]

theorem lastVal_cover (env : Env) (ca : Val) (na t : String) (fs : Item)
    (k : String) (h : k ≠ "coverImageUrl") :
    lastVal (update_cover_on_author_change env ca na t fs).1 k =
      lastVal fs k := by
  unfold update_cover_on_author_change
  split
  · cases env.cover t (some na) <;> simp [lastVal_setField_ne _ _ _ _ h]
  · rfl

theorem lastVal_cover_phase (env : Env) (books : List Item) (bid : String)
    (bmf : Item) (k : String) (h : k ≠ "coverImageUrl") :
    lastVal (update_cover_phase env books bid bmf).1 k = lastVal bmf k := by
  unfold update_cover_phase
  split
  · split
    · exact lastVal_cover _ _ _ _ _ _ h
    · rfl
  · rfl

theorem getField_apply_of_lastVal_none (ar : Bool) (fs : List (String × Val))
    (it : Item) (k : String) (h : lastVal fs k = none) :
    getField (applyUpdateFields ar it fs) k = getField it k := by
  rw [getField_applyUpdateFields, h]

theorem _update_book_metadata_ok (books : List Item) (bid : String)
    (fs : List (String × Val)) (u : Item) (bs : List Item)
    (h : _update_book_metadata books bid fs = .ok (u, bs)) :
    ∃ it, findBook books (.str bid) = some it ∧
      u = applyUpdateFields true it fs ∧
      bs = replaceBook books (.str bid) u := by
  unfold _update_book_metadata update_item build_update_params at h
  cases hf : findBook books (.str bid) with
  | none =>
      rw [hf] at h
      simp at h
  | some it =>
      rw [hf] at h
      simp only [Except.ok.injEq, Prod.mk.injEq] at h
      exact ⟨it, rfl, h.1.symm, by rw [← h.2, h.1]⟩

theorem validate_string_field_400 (body : Item) (f : String) (ml : Nat)
    (req : Bool) (r : Resp)
    (h : validate_string_field body f ml req = some r) :
    r.statusCode = 400 := by
  unfold validate_string_field at h
  split at h
  · split at h
    · simp at h; rw [← h]; rfl
    · simp at h
  · split at h
    · split at h
      · simp at h; rw [← h]; rfl
      · split at h
        · simp at h; rw [← h]; rfl
        · simp at h
    · simp at h; rw [← h]; rfl

theorem validate_boolean_field_400 (body : Item) (f : String) (r : Resp)
    (h : validate_boolean_field body f = some r) : r.statusCode = 400 := by
  unfold validate_boolean_field at h
  split at h
  · simp at h
  · simp at h
  · simp at h; rw [← h]; rfl

theorem validate_series_order_400 (body : Item) (f : String) (r : Resp)
    (h : validate_series_order body f = some r) : r.statusCode = 400 := by
  unfold validate_series_order at h
  split at h
  · simp at h
  · simp at h
  · split at h
    · split at h
      · simp at h; rw [← h]; rfl
      · simp at h
    · simp at h; rw [← h]; rfl

/-- Every rejection of the update-body validation chain is a 400. -/
theorem update_validate_400 (body : Item) (r : Resp)
    (h : update_validate body = some r) : r.statusCode = 400 := by
  unfold update_validate at h
  repeat' split at h
  all_goals
    first
      | exact validate_series_order_400 _ _ _ h
      | (simp only [Option.some.injEq] at h
         rw [← h]
         first
           | rfl
           | exact validate_boolean_field_400 _ _ _ (by assumption)
           | exact validate_string_field_400 _ _ _ _ _ (by assumption))

/-- The read status the update handler reports equals the supplied
`read` value, or false when the body did not carry `read`. -/
theorem usf_read (body : Item) :
    (if update_collect_user_fields body = [] then false
     else readOf (update_collect_user_fields body)) =
      match getField body "read" with
      | some v => pyTruthy v
      | none => false := by
  cases hr : getField body "read" <;>
  simp [update_collect_user_fields, hr, readOf, getField]


theorem lastVal_setField_self_of_none (d : Item) (k : String) (v : Val)
    (h : lastVal d k = none) : lastVal (setField d k v) k = some v := by
  induction d with
  | nil => simp [setField, lastVal]
  | cons p rest ih =>
      obtain ⟨k0, v0⟩ := p
      by_cases hp : k0 = k
      · exfalso
        simp only [lastVal] at h
        cases hl : lastVal rest k with
        | some w => rw [hl] at h; exact Option.noConfusion h
        | none => rw [hl] at h; simp [hp] at h
      · simp only [lastVal, hp] at h
        cases hl : lastVal rest k with
        | some w => rw [hl] at h; simp at h
        | none => simp [setField, hp, lastVal, ih hl]

theorem lastVal_bmf_cover (body : Item) :
    lastVal (update_collect_metadata_fields body) "coverImageUrl" = none := by
  unfold update_collect_metadata_fields
  simp [lastVal_append,
    lastVal_bmfAuthor body "coverImageUrl" (by decide),
    lastVal_bmfName body "coverImageUrl" (by decide),
    lastVal_bmfSeriesName body "coverImageUrl" (by decide),
    lastVal_bmfSeriesOrder body "coverImageUrl" (by decide)]


theorem lastVal_smhAuthor_ne (body : Item) (k : String) (h : k ≠ "author") :
    lastVal (smhAuthor body) k = none := by
  unfold smhAuthor
  split <;> simp [lastVal, Ne.symm h]

theorem lastVal_smhSeriesName_ne (body : Item) (k : String)
    (h : k ≠ "series_name") : lastVal (smhSeriesName body) k = none := by
  unfold smhSeriesName
  split <;> simp [lastVal, Ne.symm h]

theorem lastVal_smhSeriesOrder_ne (body : Item) (k : String)
    (h : k ≠ "series_order") : lastVal (smhSeriesOrder body) k = none := by
  unfold smhSeriesOrder
  cases getField body "series_order" with
  | none => simp [lastVal]
  | some v =>
      cases v with
      | null => simp [lastVal]
      | bool b => cases pyInt (Val.bool b) <;> simp [lastVal, Ne.symm h]
      | int m => cases pyInt (Val.int m) <;> simp [lastVal, Ne.symm h]
      | str st =>
          cases hpi : pyInt (Val.str st) <;> simp [hpi, lastVal, Ne.symm h]

theorem lastVal_smh_author (body : Item)
    (h : strippedStrField body "author" ≠ "") :
    lastVal (smh_collect body) "author" =
      some (.str (strippedStrField body "author")) := by
  unfold smh_collect
  simp [lastVal_append, lastVal_smhSeriesName_ne body "author" (by decide),
    lastVal_smhSeriesOrder_ne body "author" (by decide)]
  unfold smhAuthor
  rw [if_pos h]
  simp [lastVal]

theorem lastVal_smh_sname (body : Item)
    (h : strippedStrField body "series_name" ≠ "") :
    lastVal (smh_collect body) "series_name" =
      some (.str (strippedStrField body "series_name")) := by
  unfold smh_collect
  simp [lastVal_append,
    lastVal_smhSeriesOrder_ne body "series_name" (by decide)]
  unfold smhSeriesName
  rw [if_pos h]
  simp [lastVal]

theorem lastVal_smh_sorder (body : Item) (v : Val) (m : Int)
    (hv : getField body "series_order" = some v) (hnull : v ≠ .null)
    (hm : pyInt v = some m) :
    lastVal (smh_collect body) "series_order" = some (.int m) := by
  unfold smh_collect
  simp only [lastVal_append]
  have hown : lastVal (smhSeriesOrder body) "series_order" =
      some (.int m) := by
    unfold smhSeriesOrder
    rw [hv]
    cases v with
    | null => exact absurd rfl hnull
    | bool b => simp only [] ; rw [hm] ; simp [lastVal]
    | int m2 => simp only [] ; rw [hm] ; simp [lastVal]
    | str st => simp only [] ; rw [hm] ; simp [lastVal]
  rw [hown]

/-- Every entry the set-upload-metadata flow writes: a non-empty
stripped author or series name, or a coerced series order. -/
theorem smh_mem (body : Item) (p : String × Val)
    (hp : p ∈ smh_collect body) :
    (p = ("author", .str (strippedStrField body "author")) ∧
      strippedStrField body "author" ≠ "") ∨
    (p = ("series_name", .str (strippedStrField body "series_name")) ∧
      strippedStrField body "series_name" ≠ "") ∨
    (∃ v m, getField body "series_order" = some v ∧ v ≠ .null ∧
      pyInt v = some m ∧ p = ("series_order", .int m)) := by
  unfold smh_collect at hp
  rw [List.mem_append, List.mem_append] at hp
  rcases hp with (hp | hp) | hp
  · unfold smhAuthor at hp
    by_cases ha : strippedStrField body "author" ≠ ""
    · rw [if_pos ha] at hp
      simp at hp
      exact Or.inl ⟨hp, ha⟩
    · rw [if_neg ha] at hp
      simp at hp
  · unfold smhSeriesName at hp
    by_cases ha : strippedStrField body "series_name" ≠ ""
    · rw [if_pos ha] at hp
      simp at hp
      exact Or.inr (Or.inl ⟨hp, ha⟩)
    · rw [if_neg ha] at hp
      simp at hp
  · unfold smhSeriesOrder at hp
    cases hv : getField body "series_order" with
    | none => rw [hv] at hp; simp at hp
    | some v =>
        rw [hv] at hp
        cases v with
        | null => simp at hp
        | bool b =>
            cases hm : pyInt (Val.bool b) with
            | none => simp [pyInt] at hm
            | some m =>
                simp [hm] at hp
                exact Or.inr (Or.inr ⟨Val.bool b, m, rfl, by simp, hm, hp⟩)
        | int m2 =>
            cases hm : pyInt (Val.int m2) with
            | none => simp [pyInt] at hm
            | some m =>
                simp [hm] at hp
                exact Or.inr (Or.inr ⟨Val.int m2, m, rfl, by simp, hm, hp⟩)
        | str st =>
            cases hm : pyInt (Val.str st) with
            | none => simp [hm] at hp
            | some m =>
                simp [hm] at hp
                exact Or.inr (Or.inr ⟨Val.str st, m, rfl, by simp, hm, hp⟩)

/-- The builder's loop splits any field list into the SET part (the
non-removed fields, each with its `:field` value binding) and the
REMOVE part (the null/empty fields), one entry per field, preserving
field order in each part. -/
theorem classifyFields_spec (fields : List (String × Val)) :
    classifyFields true fields =
      ((fields.filter (fun p => !isRemoveVal p.2)).map
          (fun p => "#" ++ p.1 ++ " = :" ++ p.1),
        (fields.filter (fun p => isRemoveVal p.2)).map (fun p => "#" ++ p.1),
        (fields.filter (fun p => !isRemoveVal p.2)).map
          (fun p => (":" ++ p.1, p.2)),
        fields.map (fun p => ("#" ++ p.1, p.1))) := by
  induction fields with
  | nil => simp [classifyFields]
  | cons p rest ih =>
      by_cases h : isRemoveVal p.2
      · simp [classifyFields, ih, h, List.filter_cons]
      · simp [classifyFields, ih, h, List.filter_cons]

/-! ## Claims -/

/-- C1: with `allow_remove` on, the update-expression builder places
every null/empty-valued field in the REMOVE clause and every other
field in the SET clause with its value, each field classified
independently of the others; the descriptors the update flows build
carry the `attribute_exists(id)` precondition, so applying one to a
missing record yields the conditional-check failure (no record
created) which the update handler surfaces as 404. -/
theorem C1_update_expression_builder :
    (∀ fields : List (String × Val),
      (build_update_expression fields true).updateExprParts =
        (fields.filter (fun p => !isRemoveVal p.2)).map
          (fun p => "#" ++ p.1 ++ " = :" ++ p.1) ∧
      (build_update_expression fields true).removeExprParts =
        (fields.filter (fun p => isRemoveVal p.2)).map (fun p => "#" ++ p.1) ∧
      (build_update_expression fields true).exprAttrValues =
        (fields.filter (fun p => !isRemoveVal p.2)).map
          (fun p => (":" ++ p.1, p.2)) ∧
      (build_update_expression fields true).exprAttrNames =
        fields.map (fun p => ("#" ++ p.1, p.1))) ∧
    (∀ (bid : String) (fields : List (String × Val)),
      (build_update_params "id" (.str bid) fields true
          (some "attribute_exists(id)") "ALL_NEW").conditionExpression =
        some "attribute_exists(id)") ∧
    (∀ (books : List Item) (bid : String) (fields : List (String × Val)),
      findBook books (.str bid) = none →
      _update_book_metadata books bid fields = .error .conditionalCheckFailed) ∧
    (∀ (env : Env) (e : Event) (db : DB) (uid bid : String),
      get_user_id e = some uid → e.pathId = some bid →
      update_validate e.body = none →
      update_collect_metadata_fields e.body ≠ [] →
      findBook db.books (.str bid) = none →
      (update_book_handler env e db).resp.statusCode = 404 ∧
      (update_book_handler env e db).db.books = db.books) := by
  refine ⟨?_, ?_, ?_, ?_⟩
  · intro fields
    simp [build_update_expression, classifyFields_spec]
  · intro bid fields
    rfl
  · intro books bid fields h5
    simp [_update_book_metadata, update_item, build_update_params, h5]
  · intro env e db uid bid h1 h2 h3 h4 h5
    have hnotand : ¬ (update_collect_user_fields e.body = [] ∧
        update_collect_metadata_fields e.body = []) := by
      intro hc; exact h4 hc.2
    by_cases husf : update_collect_user_fields e.body = [] <;>
    cases hauth : (getField (update_collect_metadata_fields e.body) "author").isSome <;>
    simp [update_book_handler, update_cover_phase, h1, h2, h3, hnotand, h4,
      husf, hauth, h5, _update_book_metadata, update_item, build_update_params,
      _update_user_book_status, error_response, api_response]

/-- C1 witness: concrete instances discharging the hypotheses — an
update of a record absent from the store fails the existence
precondition and the handler answers 404 leaving the Books table
unchanged. -/
theorem C1_update_expression_builder_witness :
    _update_book_metadata [] "book-x" [("author", .str "A")] =
      .error .conditionalCheckFailed ∧
    (update_book_handler wEnvNone wEvMissing wDbA).resp.statusCode = 404 ∧
    (update_book_handler wEnvNone wEvMissing wDbA).db.books = wDbA.books :=
  ⟨C1_update_expression_builder.2.2.1 [] "book-x" [("author", .str "A")] rfl,
    C1_update_expression_builder.2.2.2 wEnvNone wEvMissing wDbA "u1" "missing"
      rfl rfl (by decide) (by decide) (by decide)⟩

/-- C2: dual-table separation — an Update whose body carries none of
the metadata fields leaves every Books record untouched, and an
Update whose body does not carry `read` neither creates nor alters
any UserBooks row. -/
theorem C2_dual_table_separation :
    (∀ (env : Env) (e : Event) (db : DB),
      getField e.body "author" = none → getField e.body "name" = none →
      getField e.body "series_name" = none →
      getField e.body "series_order" = none →
      (update_book_handler env e db).db.books = db.books) ∧
    (∀ (env : Env) (e : Event) (db : DB),
      getField e.body "read" = none →
      (update_book_handler env e db).db.userBooks = db.userBooks) := by
  constructor
  · intro env e db ha hn hs ho
    have hbmf : update_collect_metadata_fields e.body = [] := by
      simp [update_collect_metadata_fields, bmfAuthor, bmfName,
        bmfSeriesName, bmfSeriesOrder, ha, hn, hs, ho]
    cases hu : get_user_id e with
    | none => simp [update_book_handler, hu]
    | some uid =>
      cases hp : e.pathId with
      | none => simp [update_book_handler, hu, hp]
      | some bid =>
        cases hv : update_validate e.body with
        | some err => simp [update_book_handler, hu, hp, hv]
        | none =>
          by_cases husf : update_collect_user_fields e.body = []
          · simp [update_book_handler, hu, hp, hv, husf, hbmf]
          · simp only [update_book_handler, hu, hp, hv, hbmf]
            simp [husf, _update_user_book_status]
            split <;> rfl
  · intro env e db hr
    have husf : update_collect_user_fields e.body = [] := by
      simp [update_collect_user_fields, hr]
    cases hu : get_user_id e with
    | none => simp [update_book_handler, hu]
    | some uid =>
      cases hp : e.pathId with
      | none => simp [update_book_handler, hu, hp]
      | some bid =>
        cases hv : update_validate e.body with
        | some err => simp [update_book_handler, hu, hp, hv]
        | none =>
          by_cases hbmf : update_collect_metadata_fields e.body = []
          · simp [update_book_handler, hu, hp, hv, husf, hbmf]
          · simp only [update_book_handler, hu, hp, hv, husf, hbmf]
            simp [hbmf]
            split <;> rfl

/-- C2 witness: a read-only update of book-a leaves the Books table
as it was, and an author-only update leaves the UserBooks table as
it was. -/
theorem C2_dual_table_separation_witness :
    (update_book_handler wEnvNone wEvRead wDbA).db.books = wDbA.books ∧
    (update_book_handler wEnvNone wEvAuthor wDbA).db.userBooks = wDbA.userBooks :=
  ⟨C2_dual_table_separation.1 wEnvNone wEvRead wDbA rfl rfl rfl rfl,
    C2_dual_table_separation.2 wEnvNone wEvAuthor wDbA rfl⟩

/-- C3: every authenticated List response is the Books table
serialized and sorted by `created` descending, and each returned
book's `read` is the caller's own UserBooks row's value for that
book, or false when no such row exists — rows of other users play no
part.  (The UserBooks table is assumed key-consistent: no duplicate
(user, book) row; `created` is a string on every record, as
ingestion guarantees.) -/
theorem C3_list_sorted_and_caller_read :
    ∀ (e : Event) (db : DB) (uid : String),
      get_user_id e = some uid →
      ((db.userBooks.filter (fun r => r.userId == uid)).map
        (fun r => r.bookId)).Nodup →
      (list_handler e db).statusCode = 200 ∧
      List.Pairwise (fun a b => sortKeyOf b ≤ sortKeyOf a)
        (list_handler e db).books ∧
      ∀ b ∈ (list_handler e db).books, ∃ it ∈ db.books,
        b = serialize_book_response it (callerReadStatus db uid it) := by
  intro e db uid hu hnd
  simp only [list_handler, hu]
  refine ⟨by trivial, ?_, ?_⟩
  · have htrans : ∀ a b c : Item,
        (fun a b => decide (sortKeyOf b ≤ sortKeyOf a)) a b = true →
        (fun a b => decide (sortKeyOf b ≤ sortKeyOf a)) b c = true →
        (fun a b => decide (sortKeyOf b ≤ sortKeyOf a)) a c = true := by
      intro a b c hab hbc
      simp only [decide_eq_true_eq] at hab hbc ⊢
      exact le_trans hbc hab
    have htotal : ∀ a b : Item,
        ((fun a b => decide (sortKeyOf b ≤ sortKeyOf a)) a b ||
         (fun a b => decide (sortKeyOf b ≤ sortKeyOf a)) b a) = true := by
      intro a b
      simp only [Bool.or_eq_true, decide_eq_true_eq]
      exact le_total (sortKeyOf b) (sortKeyOf a)
    have h := List.sorted_mergeSort htrans htotal
      (db.books.map (fun it => serialize_book_response it
        (readStatusForItem (_get_user_read_statuses db uid) it)))
    exact h.imp (fun hab => by simpa using hab)
  · intro b hb
    rw [List.mem_mergeSort] at hb
    obtain ⟨it, hit, hser⟩ := List.mem_map.mp hb
    refine ⟨it, hit, ?_⟩
    rw [← hser, readStatus_eq_caller db uid it hnd]

/-- C3 witness: the concrete one-book store — the response for user
u1 is 200, sorted, and the single book carries u1's stored read
value. -/
theorem C3_list_sorted_and_caller_read_witness :
    (list_handler wEvList wDbA).statusCode = 200 ∧
    List.Pairwise (fun a b => sortKeyOf b ≤ sortKeyOf a)
      (list_handler wEvList wDbA).books ∧
    ∀ b ∈ (list_handler wEvList wDbA).books, ∃ it ∈ wDbA.books,
      b = serialize_book_response it (callerReadStatus wDbA "u1" it) :=
  C3_list_sorted_and_caller_read wEvList wDbA "u1" rfl (by decide)

/-- C4 counterexample: user u1 has a stored UserBooks row with
read = true for book-a, yet an author-only update (read not
supplied) succeeds with 200 and reports read = false — the response
does not carry the caller's stored read status, contradicting the
claim that the merged view uses the stored UserBookStatus value when
`read` is absent. -/
theorem C4_merged_response_counterexample :
    (update_book_handler wEnvNone wEvAuthor wDbA).resp.statusCode = 200 ∧
    callerReadStatus wDbA "u1" wBookA = true ∧
    getField (update_book_handler wEnvNone wEvAuthor wDbA).resp.body "read" =
      some (.bool false) := by
  decide

/-- C4 amended: for every Update that succeeds with 200, the
response body is the resulting Books record serialized with a read
status equal to the value just written when `read` was supplied, and
false otherwise — the stored UserBookStatus value is not
consulted. -/
theorem C4_merged_response_amended :
    ∀ (env : Env) (e : Event) (db : DB) (uid bid : String),
      get_user_id e = some uid → e.pathId = some bid →
      (update_book_handler env e db).resp.statusCode = 200 →
      ∃ finalIt,
        findBook (update_book_handler env e db).db.books (.str bid) =
          some finalIt ∧
        (update_book_handler env e db).resp.body =
          serialize_book_response finalIt
            (match getField e.body "read" with
             | some v => pyTruthy v
             | none => false) := by
  intro env e db uid bid hu hp h200
  cases hv : update_validate e.body with
  | some err =>
      simp only [update_book_handler, hu, hp, hv] at h200
      have := update_validate_400 e.body err hv
      omega
  | none =>
  by_cases hboth : update_collect_user_fields e.body = [] ∧
      update_collect_metadata_fields e.body = []
  · simp only [update_book_handler, hu, hp, hv, if_pos hboth] at h200
    simp [error_response, api_response] at h200
  · simp only [update_book_handler, hu, hp, hv, if_neg hboth] at h200 ⊢
    by_cases hbmf : update_collect_metadata_fields e.body = []
    · simp only [if_pos hbmf] at h200 ⊢
      cases hfind : findBook (if update_collect_user_fields e.body = [] then db
          else _update_user_book_status env db uid bid
            (readOf (update_collect_user_fields e.body))).books (.str bid) with
      | none =>
          rw [hfind] at h200
          simp [error_response, api_response] at h200
      | some it =>
          rw [hfind] at h200 ⊢
          refine ⟨it, rfl, ?_⟩
          simp only [api_response]
          rw [← usf_read e.body]
    · simp only [if_neg hbmf] at h200 ⊢
      set db1 := if update_collect_user_fields e.body = [] then db
          else _update_user_book_status env db uid bid
            (readOf (update_collect_user_fields e.body)) with hdb1
      set fc := update_cover_phase env db1.books bid
          (update_collect_metadata_fields e.body) with hfc
      cases hupd : _update_book_metadata db1.books bid fc.1 with
      | error err =>
          cases err
          simp [hupd, error_response, api_response] at h200
      | ok pr =>
          obtain ⟨u, bs⟩ := pr
          obtain ⟨it, hfind, hueq, hbs⟩ := _update_book_metadata_ok _ _ _ _ _ hupd
          have hid_it : getField it "id" = some (.str bid) :=
            findBook_some_id _ _ _ hfind
          have hid_u : getField u "id" = some (.str bid) := by
            rw [hueq, getField_apply_of_lastVal_none]
            · exact hid_it
            · rw [hfc, lastVal_cover_phase _ _ _ _ _ (by decide)]
              exact lastVal_bmf_id e.body
          refine ⟨u, ?_, ?_⟩
          · show findBook bs (.str bid) = some u
            rw [hbs]
            exact findBook_replaceBook _ _ _ hid_u (by rw [hfind]; rfl)
          · show (api_response 200 (serialize_book_response u
                (if update_collect_user_fields e.body = [] then false
                 else readOf (update_collect_user_fields e.body)))).body = _
            simp only [api_response]
            rw [← usf_read e.body]

/-- C4 witness: a read-only update of book-a answers 200 with the
stored record serialized under the just-written read value. -/
theorem C4_merged_response_amended_witness :
    ∃ finalIt,
      findBook (update_book_handler wEnvNone wEvRead wDbA).db.books
        (.str "book-a") = some finalIt ∧
      (update_book_handler wEnvNone wEvRead wDbA).resp.body =
        serialize_book_response finalIt
          (match getField wEvRead.body "read" with
           | some v => pyTruthy v
           | none => false) :=
  C4_merged_response_amended wEnvNone wEvRead wDbA "u1" "book-a" rfl rfl
    (by decide)

/-- C5: series_order validation accepts any value whose `int()`
coercion lands in [1,100]; rejects a coerced value outside the range
with the between-1-and-100 message; rejects a non-null value that
`int()` cannot coerce with the must-be-an-integer message; and
always accepts null, which the update flow turns into a REMOVE of
the attribute. -/
theorem C5_series_order_validation :
    (∀ (body : Item) (v : Val) (n : Int),
       getField body "series_order" = some v → pyInt v = some n →
       1 ≤ n → n ≤ 100 →
       validate_series_order body "series_order" = none) ∧
    (∀ (body : Item) (v : Val) (n : Int),
       getField body "series_order" = some v → pyInt v = some n →
       (n < 1 ∨ 100 < n) →
       validate_series_order body "series_order" =
         some (error_response 400 "Bad Request"
           "series_order must be between 1 and 100")) ∧
    (∀ (body : Item) (v : Val),
       getField body "series_order" = some v → v ≠ .null →
       pyInt v = none →
       validate_series_order body "series_order" =
         some (error_response 400 "Bad Request"
           "series_order must be an integer")) ∧
    (∀ body : Item, getField body "series_order" = some .null →
       validate_series_order body "series_order" = none) ∧
    (∀ body : Item, getField body "series_order" = some .null →
       lastVal (update_collect_metadata_fields body) "series_order" =
         some .null ∧
       ∀ it : Item, getField
         (applyUpdateFields true it (update_collect_metadata_fields body))
         "series_order" = none) := by
  refine ⟨?_, ?_, ?_, ?_, ?_⟩
  · intro body v n hv hn h1 h100
    cases v with
    | null => simp [pyInt] at hn
    | bool b =>
        simp [validate_series_order, hv, hn]
        omega
    | int m =>
        simp [validate_series_order, hv, hn]
        omega
    | str st =>
        simp [validate_series_order, hv, hn]
        omega
  · intro body v n hv hn hrange
    have hcond : (decide (n < 1) || decide (n > 100)) = true := by
      rcases hrange with h | h <;> simp [h]
    cases v with
    | null => simp [pyInt] at hn
    | bool b => simp [validate_series_order, hv, hn, hcond]
    | int m => simp [validate_series_order, hv, hn, hcond]
    | str st => simp [validate_series_order, hv, hn, hcond]
  · intro body v hv hnull hn
    cases v with
    | null => exact absurd rfl hnull
    | bool b => simp [pyInt] at hn
    | int m => simp [pyInt] at hn
    | str st => simp [validate_series_order, hv, hn]
  · intro body h
    simp [validate_series_order, h]
  · intro body h
    have h4 : lastVal (bmfSeriesOrder body) "series_order" = some .null := by
      simp [bmfSeriesOrder, h, lastVal]
    have hlv : lastVal (update_collect_metadata_fields body) "series_order" =
        some .null := by
      unfold update_collect_metadata_fields
      simp [lastVal_append, h4]
    refine ⟨hlv, fun it => ?_⟩
    rw [getField_applyUpdateFields, hlv]
    simp [isRemoveVal]

/-- C5 witness: 5 is accepted, 101 is rejected with the range
message, "abc" is rejected with the integer message, null is
accepted and removes the attribute. -/
theorem C5_series_order_validation_witness :
    validate_series_order [("series_order", .int 5)] "series_order" = none ∧
    validate_series_order [("series_order", .int 101)] "series_order" =
      some (error_response 400 "Bad Request"
        "series_order must be between 1 and 100") ∧
    validate_series_order [("series_order", .str "abc")] "series_order" =
      some (error_response 400 "Bad Request"
        "series_order must be an integer") ∧
    validate_series_order [("series_order", .null)] "series_order" = none ∧
    (lastVal (update_collect_metadata_fields [("series_order", .null)])
        "series_order" = some .null ∧
     ∀ it : Item, getField
       (applyUpdateFields true it
         (update_collect_metadata_fields [("series_order", .null)]))
       "series_order" = none) :=
  ⟨C5_series_order_validation.1 [("series_order", .int 5)] (.int 5) 5
      rfl rfl (by decide) (by decide),
   C5_series_order_validation.2.1 [("series_order", .int 101)] (.int 101) 101
      rfl rfl (Or.inr (by decide)),
   C5_series_order_validation.2.2.1 [("series_order", .str "abc")]
      (.str "abc") rfl (by decide) (by decide),
   C5_series_order_validation.2.2.2.1 [("series_order", .null)] rfl,
   C5_series_order_validation.2.2.2.2 [("series_order", .null)] rfl⟩

/-- C6 counterexample: the stored author of book-a is "Old Author"
and the update supplies the empty author, which differs from the
stored value; the update succeeds, yet no cover lookup happens —
the code additionally requires the supplied author to be non-empty,
so "a cover lookup is performed exactly when the supplied author
differs from the stored author" is false. -/
theorem C6_cover_refresh_counterexample :
    getField wBookA "author" = some (.str "Old Author") ∧
    getField wEvEmptyAuthor.body "author" = some (.str "") ∧
    (update_book_handler wEnvHit wEvEmptyAuthor wDbA).resp.statusCode = 200 ∧
    (update_book_handler wEnvHit wEvEmptyAuthor wDbA).coverCalls = [] := by
  decide

/-- C6 amended: during a metadata update whose target record exists
and whose body supplies `author`, the cover lookup runs exactly when
the supplied author is non-empty AND differs from the stored author
value; on a lookup hit `coverImageUrl` is set to the returned URL,
and on a miss the attribute is explicitly removed (set to null)
rather than left untouched.  (The cover oracle, like
`fetch_cover_url`, never yields an empty URL.) -/
theorem C6_cover_refresh_amended :
    ∀ (env : Env) (e : Event) (db : DB) (uid bid a : String) (it : Item),
      (∀ t oa, env.cover t oa ≠ some "") →
      get_user_id e = some uid → e.pathId = some bid →
      update_validate e.body = none →
      getField e.body "author" = some (.str a) →
      findBook db.books (.str bid) = some it →
      ((update_book_handler env e db).coverCalls =
        if a ≠ "" ∧ Val.str a ≠ (getField it "author").getD (.str "")
        then [(titleOf it bid, a)] else []) ∧
      ((a ≠ "" ∧ Val.str a ≠ (getField it "author").getD (.str "")) →
        ∃ u, findBook (update_book_handler env e db).db.books (.str bid) =
            some u ∧
          getField u "coverImageUrl" =
            (match env.cover (titleOf it bid) (some a) with
             | some url => some (.str url)
             | none => none)) := by
  intro env e db uid bid a it henv hu hp hv ha hit
  have hbmfA : bmfAuthor e.body = [("author", .str a)] := by
    simp [bmfAuthor, ha, pyStr]
  have hbmf : update_collect_metadata_fields e.body ≠ [] := by
    simp [update_collect_metadata_fields, hbmfA]
  have hnotand : ¬ (update_collect_user_fields e.body = [] ∧
      update_collect_metadata_fields e.body = []) := fun hc => hbmf hc.2
  have hgbmf : getField (update_collect_metadata_fields e.body) "author" =
      some (.str a) := by
    simp [update_collect_metadata_fields, hbmfA, getField]
  simp only [update_book_handler, hu, hp, hv, if_neg hnotand, if_neg hbmf]
  set bmf := update_collect_metadata_fields e.body with hbmfdef
  set db1 := if update_collect_user_fields e.body = [] then db
      else _update_user_book_status env db uid bid
        (readOf (update_collect_user_fields e.body)) with hdb1
  have hb1 : db1.books = db.books := by
    rw [hdb1]; split <;> rfl
  have hit1 : findBook db1.books (.str bid) = some it := by rw [hb1]; exact hit
  have hphase : update_cover_phase env db1.books bid bmf =
      update_cover_on_author_change env
        ((getField it "author").getD (.str "")) a (titleOf it bid) bmf := by
    unfold update_cover_phase
    rw [if_pos (by rw [hgbmf]; rfl), hit1, hgbmf]
    rfl
  have hupd : ∀ fs : Item, _update_book_metadata db1.books bid fs =
      .ok (applyUpdateFields true it fs,
        replaceBook db1.books (.str bid) (applyUpdateFields true it fs)) := by
    intro fs
    unfold _update_book_metadata update_item build_update_params
    rw [hit1]
  by_cases hcond : a ≠ "" ∧ Val.str a ≠ (getField it "author").getD (.str "")
  · cases hcov : env.cover (titleOf it bid) (some a) with
    | some url =>
        have hpair : update_cover_phase env db1.books bid bmf =
            (setField bmf "coverImageUrl" (.str url),
              [(titleOf it bid, a)]) := by
          rw [hphase]
          unfold update_cover_on_author_change
          rw [if_pos hcond, hcov]
        rw [hpair, hupd]
        have hlvc : lastVal (setField bmf "coverImageUrl" (.str url))
            "coverImageUrl" = some (.str url) :=
          lastVal_setField_self_of_none _ _ _ (lastVal_bmf_cover e.body)
        have hlvid : lastVal (setField bmf "coverImageUrl" (.str url))
            "id" = none := by
          rw [lastVal_setField_ne _ _ _ _ (by decide)]
          exact lastVal_bmf_id e.body
        have hid_u : getField (applyUpdateFields true it
            (setField bmf "coverImageUrl" (.str url))) "id" =
            some (.str bid) := by
          rw [getField_apply_of_lastVal_none _ _ _ _ hlvid]
          exact findBook_some_id _ _ _ hit1
        refine ⟨by rw [if_pos hcond], fun _ => ?_⟩
        refine ⟨applyUpdateFields true it
          (setField bmf "coverImageUrl" (.str url)), ?_, ?_⟩
        · show findBook (replaceBook db1.books (.str bid) _) (.str bid) = _
          exact findBook_replaceBook _ _ _ hid_u (by rw [hit1]; rfl)
        · rw [getField_applyUpdateFields, hlvc]
          simp [isRemoveVal, hcov]
          exact fun h => henv (titleOf it bid) (some a) (by rw [hcov, h])
    | none =>
        have hpair : update_cover_phase env db1.books bid bmf =
            (setField bmf "coverImageUrl" .null,
              [(titleOf it bid, a)]) := by
          rw [hphase]
          unfold update_cover_on_author_change
          rw [if_pos hcond, hcov]
        rw [hpair, hupd]
        have hlvc : lastVal (setField bmf "coverImageUrl" .null)
            "coverImageUrl" = some .null :=
          lastVal_setField_self_of_none _ _ _ (lastVal_bmf_cover e.body)
        have hlvid : lastVal (setField bmf "coverImageUrl" .null)
            "id" = none := by
          rw [lastVal_setField_ne _ _ _ _ (by decide)]
          exact lastVal_bmf_id e.body
        have hid_u : getField (applyUpdateFields true it
            (setField bmf "coverImageUrl" .null)) "id" =
            some (.str bid) := by
          rw [getField_apply_of_lastVal_none _ _ _ _ hlvid]
          exact findBook_some_id _ _ _ hit1
        refine ⟨by rw [if_pos hcond], fun _ => ?_⟩
        refine ⟨applyUpdateFields true it
          (setField bmf "coverImageUrl" .null), ?_, ?_⟩
        · show findBook (replaceBook db1.books (.str bid) _) (.str bid) = _
          exact findBook_replaceBook _ _ _ hid_u (by rw [hit1]; rfl)
        · rw [getField_applyUpdateFields, hlvc]
          simp [isRemoveVal, hcov]
  · have hpair : update_cover_phase env db1.books bid bmf = (bmf, []) := by
      rw [hphase]
      unfold update_cover_on_author_change
      rw [if_neg hcond]
    rw [hpair, hupd]
    exact ⟨by rw [if_neg hcond], fun hc => absurd hc hcond⟩

/-- C6 witness: updating book-a with a new non-empty author under a
hitting cover oracle performs exactly one lookup and sets the new
cover URL. -/
theorem C6_cover_refresh_amended_witness :
    ((update_book_handler wEnvHit wEvAuthor wDbA).coverCalls =
      if "New Author" ≠ "" ∧
          Val.str "New Author" ≠ (getField wBookA "author").getD (.str "")
      then [(titleOf wBookA "book-a", "New Author")] else []) ∧
    (("New Author" ≠ "" ∧
        Val.str "New Author" ≠ (getField wBookA "author").getD (.str "")) →
      ∃ u, findBook (update_book_handler wEnvHit wEvAuthor wDbA).db.books
          (.str "book-a") = some u ∧
        getField u "coverImageUrl" =
          (match wEnvHit.cover (titleOf wBookA "book-a")
              (some "New Author") with
           | some url => some (.str url)
           | none => none)) :=
  C6_cover_refresh_amended wEnvHit wEvAuthor wDbA "u1" "book-a" "New Author"
    wBookA
    (by intro t oa h; simp [wEnvHit] at h)
    rfl rfl (by decide) rfl (by decide)

theorem basename_fold_no_slash (l : List Char) :
    ∀ acc : List Char, (∀ c ∈ acc, c ≠ '/') →
    ∀ c ∈ l.foldl (fun acc c => if c = '/' then [] else acc ++ [c]) acc,
      c ≠ '/' := by
  induction l with
  | nil => intro acc hacc; exact hacc
  | cons x xs ih =>
      intro acc hacc
      simp only [List.foldl_cons]
      by_cases hx : x = '/'
      · exact ih _ (by simp [hx])
      · refine ih _ ?_
        intro c hc
        rw [if_neg hx, List.mem_append] at hc
        rcases hc with hc | hc
        · exact hacc c hc
        · simp at hc; rw [hc]; exact hx

/-- The POSIX basename holds no slash. -/
theorem pyBasename_no_slash (s : String) :
    ∀ c ∈ (pyBasename s).data, c ≠ '/' := by
  unfold pyBasename
  exact basename_fold_no_slash s.data [] (by simp)

/-- Shape of every successful upload response: the presigned PUT
request carries bucket, sanitized key and content type with an empty
tag set, and the response body echoes the URL and key (and the
stripped author when non-empty). -/
theorem upload_success_shape :
    ∀ (env : Env) (e : Event) (f : String) (n : Int),
      is_admin e = true →
      getField e.body "filename" = some (.str f) → f ≠ "" →
      strEndsWith (pyLower f) ".zip" = true →
      validate_string_field e.body "author" 500 false = none →
      (getField e.body "fileSize").getD (.int 0) = .int n →
      n ≤ MAX_FILE_SIZE_BYTES →
      ∃ call : PresignCall,
        (upload_handler env e).presign = some call ∧
        call.tags = [] ∧
        call.key = BOOKS_KEYSPACE ++ pyBasename f ∧
        call.contentType = "application/zip" ∧
        (upload_handler env e).resp.statusCode = 200 ∧
        getField (upload_handler env e).resp.body "uploadUrl" =
          some (.str (env.presign call)) ∧
        getField (upload_handler env e).resp.body "s3Key" =
          some (.str (BOOKS_KEYSPACE ++ pyBasename f)) ∧
        getField (upload_handler env e).resp.body "author" =
          (if strippedStrField e.body "author" = "" then none
           else some (.str (strippedStrField e.body "author"))) := by
  intro env e f n hadmin hf hfne hzip hval hsize hmax
  have htruthy : pyTruthy ((getField e.body "filename").getD .null) = true := by
    rw [hf]; simp [pyTruthy, hfne]
  have hnotover : ¬ n > MAX_FILE_SIZE_BYTES := by omega
  simp only [upload_handler, hadmin, Bool.not_true, Bool.false_eq_true,
    if_neg, htruthy, hf, hval, hsize, hzip, Bool.not_false, fileSizeNum,
    reduceIte, if_pos]
  have htruthy2 : pyTruthy (Val.str f) = true := by simp [pyTruthy, hfne]
  simp only [Option.getD_some, htruthy2, hzip, Bool.not_true,
    Bool.false_eq_true, if_neg, not_false_eq_true, if_pos, hnotover]
  refine ⟨_, rfl, rfl, rfl, rfl, rfl, ?_, ?_, ?_⟩
  · simp [getField]
  · simp [getField]
  · by_cases ha : strippedStrField e.body "author" = ""
    · simp only [strippedStrField] at ha
      simp [getField, ha, strippedStrField]
    · simp only [strippedStrField] at ha
      simp [getField, ha, strippedStrField]

/-- C7 counterexample: a valid admin upload supplying an author
succeeds, yet the presigned PUT request carries an empty tag set and
the response has no tags field — the author is only echoed in the
body, so no metadata reaches the blob through tags, contradicting
the claim that the 200 response carries tags embedding the
metadata. -/
theorem C7_upload_tags_counterexample :
    (upload_handler wEnvNone wEvUpload).resp.statusCode = 200 ∧
    getField (upload_handler wEnvNone wEvUpload).resp.body "author" =
      some (.str "Jane Doe") ∧
    ((upload_handler wEnvNone wEvUpload).presign.map PresignCall.tags) =
      some [] ∧
    getField (upload_handler wEnvNone wEvUpload).resp.body "tags" = none := by
  decide

/-- C7 amended: every successful admin upload answers 200 with a
presigned PUT URL for bucket, sanitized key and zip content type;
no tags accompany the presigned request — the optional author is
merely echoed in the response body (metadata reaches the Books
record through the separate SetUploadMetadata endpoint). -/
theorem C7_upload_response_amended :
    ∀ (env : Env) (e : Event) (f : String) (n : Int),
      is_admin e = true →
      getField e.body "filename" = some (.str f) → f ≠ "" →
      strEndsWith (pyLower f) ".zip" = true →
      validate_string_field e.body "author" 500 false = none →
      (getField e.body "fileSize").getD (.int 0) = .int n →
      n ≤ MAX_FILE_SIZE_BYTES →
      ∃ call : PresignCall,
        (upload_handler env e).presign = some call ∧
        call.tags = [] ∧
        (upload_handler env e).resp.statusCode = 200 ∧
        getField (upload_handler env e).resp.body "uploadUrl" =
          some (.str (env.presign call)) ∧
        getField (upload_handler env e).resp.body "author" =
          (if strippedStrField e.body "author" = "" then none
           else some (.str (strippedStrField e.body "author"))) := by
  intro env e f n hadmin hf hfne hzip hval hsize hmax
  obtain ⟨call, h1, h2, h3, h4, h5, h6, h7, h8⟩ :=
    upload_success_shape env e f n hadmin hf hfne hzip hval hsize hmax
  exact ⟨call, h1, h2, h5, h6, h8⟩

/-- C7 witness: the concrete upload of Book.zip with author
"Jane Doe". -/
theorem C7_upload_response_amended_witness :
    ∃ call : PresignCall,
      (upload_handler wEnvNone wEvUpload).presign = some call ∧
      call.tags = [] ∧
      (upload_handler wEnvNone wEvUpload).resp.statusCode = 200 ∧
      getField (upload_handler wEnvNone wEvUpload).resp.body "uploadUrl" =
        some (.str (wEnvNone.presign call)) ∧
      getField (upload_handler wEnvNone wEvUpload).resp.body "author" =
        (if strippedStrField wEvUpload.body "author" = "" then none
         else some (.str (strippedStrField wEvUpload.body "author"))) :=
  C7_upload_response_amended wEnvNone wEvUpload "Book.zip" 100
    rfl rfl (by decide) (by decide) rfl rfl (by decide)

/-- C10: for every upload whose filename passes validation, the
S3 key in the response is the configured books key namespace
concatenated with the POSIX basename of the supplied filename, the
presigned request targets that same key, and the basename holds no
slash — so the URL can only address an object directly under the
books namespace. -/
theorem C10_upload_key_sanitized :
    ∀ (env : Env) (e : Event) (f : String) (n : Int),
      is_admin e = true →
      getField e.body "filename" = some (.str f) → f ≠ "" →
      strEndsWith (pyLower f) ".zip" = true →
      validate_string_field e.body "author" 500 false = none →
      (getField e.body "fileSize").getD (.int 0) = .int n →
      n ≤ MAX_FILE_SIZE_BYTES →
      getField (upload_handler env e).resp.body "s3Key" =
        some (.str (BOOKS_KEYSPACE ++ pyBasename f)) ∧
      (∀ call, (upload_handler env e).presign = some call →
        call.key = BOOKS_KEYSPACE ++ pyBasename f) ∧
      ∀ c ∈ (pyBasename f).data, c ≠ '/' := by
  intro env e f n hadmin hf hfne hzip hval hsize hmax
  obtain ⟨call, h1, h2, h3, h4, h5, h6, h7, h8⟩ :=
    upload_success_shape env e f n hadmin hf hfne hzip hval hsize hmax
  refine ⟨h7, ?_, pyBasename_no_slash f⟩
  intro c hc
  rw [h1] at hc
  injection hc with hc
  rw [← hc]
  exact h3

/-- C10 witness: a traversal filename "../../etc/Secret.zip" is cut
to its basename and the key sits directly under "books/". -/
theorem C10_upload_key_sanitized_witness :
    getField (upload_handler wEnvNone wEvUploadTraversal).resp.body "s3Key" =
      some (.str (BOOKS_KEYSPACE ++ pyBasename "../../etc/Secret.zip")) ∧
    (∀ call, (upload_handler wEnvNone wEvUploadTraversal).presign =
        some call →
      call.key = BOOKS_KEYSPACE ++ pyBasename "../../etc/Secret.zip") ∧
    (∀ c ∈ (pyBasename "../../etc/Secret.zip").data, c ≠ '/') :=
  C10_upload_key_sanitized wEnvNone wEvUploadTraversal
    "../../etc/Secret.zip" 0 rfl rfl (by decide) (by decide) rfl rfl
    (by decide)

/-- C9: the ingest trigger handler acknowledges every event with
statusCode 200 — for every event, every database state and every
combination of per-record failures (tag-fetch errors, put failures,
unexpected exceptions aborting the loop), no failure status ever
reaches the trigger source. -/
theorem C9_ingest_always_succeeds :
    ∀ (env : Env) (ev : S3Event) (db : DB),
      (s3_trigger_handler env ev db).resp.statusCode = 200 := by
  intro env ev db
  unfold s3_trigger_handler
  cases hpr : processRecords env db ev.records with
  | mk db1 aborted => cases aborted <;> rfl

/-- C8: SetUploadMetadata is idempotent — running it twice with the
same event from the same store leaves the Books table exactly as one
run does, for every event, environment and store; and a call with
nothing to set (no recognized non-empty field) writes nothing and
answers 200. -/
theorem C8_set_upload_metadata_idempotent :
    (∀ (env : Env) (e : Event) (db : DB),
      (set_upload_metadata_handler env e
        (set_upload_metadata_handler env e db).db).db.books =
      (set_upload_metadata_handler env e db).db.books) ∧
    (∀ (env : Env) (e : Event) (db : DB),
      is_admin e = true →
      pyTruthy ((getField e.body "bookId").getD .null) = true →
      smh_validate e.body = none →
      smh_collect e.body = [] →
      (set_upload_metadata_handler env e db).resp.statusCode = 200 ∧
      (set_upload_metadata_handler env e db).db = db) := by
  constructor
  · intro env e db
    cases hadmin : is_admin e with
    | false => simp [set_upload_metadata_handler, hadmin]
    | true =>
    cases htruthy : pyTruthy ((getField e.body "bookId").getD .null) with
    | false => simp [set_upload_metadata_handler, hadmin, htruthy]
    | true =>
    cases hv : smh_validate e.body with
    | some err => simp [set_upload_metadata_handler, hadmin, htruthy, hv]
    | none =>
    by_cases hf0 : smh_collect e.body = []
    · simp [set_upload_metadata_handler, hadmin, htruthy, hv, hf0]
    · cases hfind : findBook db.books
          ((getField e.body "bookId").getD .null) with
      | none =>
          simp [set_upload_metadata_handler, hadmin, htruthy, hv, hf0, hfind]
      | some it =>
          simp only [set_upload_metadata_handler, hadmin, htruthy, hv,
            Bool.not_true, Bool.false_eq_true, if_neg, not_false_eq_true,
            if_pos, hf0, hfind]
          set bkey := (getField e.body "bookId").getD .null with hbkey
          set author := strippedStrField e.body "author" with hauthor
          set fields0 := smh_collect e.body with hfields0
          set fc1 := if author ≠ "" then
              update_cover_on_author_change env
                ((getField it "author").getD (.str "")) author
                (titleOf it (pyStr bkey)) fields0
            else (fields0, []) with hfc1
          have hupd1 : update_item db.books
              (build_update_params "id" bkey fc1.1 true
                (some "attribute_exists(id)") "NONE") =
              .ok (applyUpdateFields true it fc1.1,
                replaceBook db.books bkey
                  (applyUpdateFields true it fc1.1)) := by
            unfold update_item build_update_params
            rw [hfind]
          simp only [hupd1]
          set u1 := applyUpdateFields true it fc1.1 with hu1
          set books2 := replaceBook db.books bkey u1 with hbooks2
          have hlv_fc1 : ∀ k, k ≠ "coverImageUrl" →
              lastVal fc1.1 k = lastVal fields0 k := by
            intro k hk
            rw [hfc1]
            by_cases hA : author = ""
            · simp [hA]
            · rw [if_pos hA]
              exact lastVal_cover _ _ _ _ _ _ hk
          have hlv_id : lastVal fields0 "id" = none := by
            rw [hfields0]
            unfold smh_collect
            simp [lastVal_append, lastVal_smhAuthor_ne e.body "id" (by decide),
              lastVal_smhSeriesName_ne e.body "id" (by decide),
              lastVal_smhSeriesOrder_ne e.body "id" (by decide)]
          have hid_u1 : getField u1 "id" = some bkey := by
            rw [hu1, getField_apply_of_lastVal_none]
            · exact findBook_some_id _ _ _ hfind
            · rw [hlv_fc1 "id" (by decide)]
              exact hlv_id
          have hfind2 : findBook books2 bkey = some u1 := by
            rw [hbooks2]
            exact findBook_replaceBook _ _ _ hid_u1 (by rw [hfind]; rfl)
          simp only [hfind2]
          have hmemfact : ∀ p ∈ fields0, (true && isRemoveVal p.2) = false ∧
              getField u1 p.1 = some p.2 := by
            intro p hp
            rcases smh_mem e.body p (hfields0 ▸ hp) with
              ⟨hpe, hne⟩ | ⟨hpe, hne⟩ | ⟨v, m, hgv, hvn, hm, hpe⟩
            · subst hpe
              refine ⟨by simp [isRemoveVal, hne], ?_⟩
              rw [hu1, getField_applyUpdateFields,
                hlv_fc1 "author" (by decide), hfields0,
                lastVal_smh_author e.body hne]
              simp [isRemoveVal, hne]
            · subst hpe
              refine ⟨by simp [isRemoveVal, hne], ?_⟩
              rw [hu1, getField_applyUpdateFields,
                hlv_fc1 "series_name" (by decide), hfields0,
                lastVal_smh_sname e.body hne]
              simp [isRemoveVal, hne]
            · subst hpe
              refine ⟨by simp [isRemoveVal], ?_⟩
              rw [hu1, getField_applyUpdateFields,
                hlv_fc1 "series_order" (by decide), hfields0,
                lastVal_smh_sorder e.body v m hgv hvn hm]
              simp [isRemoveVal]
          have happly : applyUpdateFields true u1 fields0 = u1 :=
            applyUpdateFields_eq_self true fields0 u1 hmemfact
          have hfc2 : (if author ≠ "" then
              update_cover_on_author_change env
                ((getField u1 "author").getD (.str "")) author
                (titleOf u1 (pyStr bkey)) fields0
            else (fields0, [])) = (fields0, []) := by
            by_cases hA : author = ""
            · rw [if_neg (by simp [hA])]
            · rw [if_pos hA]
              have hcur2 : (getField u1 "author").getD (.str "") =
                  .str author := by
                rw [hu1, getField_applyUpdateFields,
                  hlv_fc1 "author" (by decide), hfields0,
                  lastVal_smh_author e.body (hauthor ▸ hA)]
                simp [isRemoveVal, hauthor ▸ hA]
              unfold update_cover_on_author_change
              rw [hcur2, if_neg (by simp)]
          simp only [hfc2]
          have hupd2 : update_item books2
              (build_update_params "id" bkey fields0
                true (some "attribute_exists(id)") "NONE") =
              .ok (applyUpdateFields true u1 fields0,
                replaceBook books2 bkey
                  (applyUpdateFields true u1 fields0)) := by
            unfold update_item build_update_params
            rw [hfind2]
          simp only [hupd2, happly, replaceBook_self _ _ _ hfind2]
  · intro env e db hadmin htruthy hv hf0
    constructor <;>
    simp [set_upload_metadata_handler, hadmin, htruthy, hv, hf0,
      api_response]

/-- C8 witness: a call whose author strips to blank has nothing to
set — it answers 200 and leaves the store untouched. -/
theorem C8_set_upload_metadata_idempotent_witness :
    (set_upload_metadata_handler wEnvNone wEvSmhEmpty wDbA).resp.statusCode =
      200 ∧
    (set_upload_metadata_handler wEnvNone wEvSmhEmpty wDbA).db = wDbA :=
  C8_set_upload_metadata_idempotent.2 wEnvNone wEvSmhEmpty wDbA
    rfl (by decide) (by decide) (by decide)

end BooksLib
